import Mathlib

/-!
Shallow embedding of the Debounce library (Debounce.cpp / Debounce.h, plus the
older variant src/Debounce.cpp) and proofs about it.

Modelling conventions:
* `uint16_t _buttonHistory` is a `Nat` kept below 2^16; the C++ truncating
  shift `_buttonHistory = _buttonHistory << 1` becomes `(h <<< 1) % 65536`.
* `uint8_t` values that only ever hold 0/1 (`_prevState`, query results) are
  modelled as `Bool`; `_active` is `Bool` with `true = HIGH`, `false = LOW`.
* `unsigned long` millisecond values are `Nat`s below 2^32; the wrapping
  subtraction `millis() - t0` becomes `usub`.
* `millis()` is constant within one call of `update` and is passed as the
  tick time `t`.
* The digital pin level read by `digitalRead` is passed as the `pin : Bool`
  argument of each tick (`true = HIGH`).
* Callbacks: each tick returns an `Events` record whose fields say whether the
  corresponding callback would be invoked this tick (if one is registered).
* The function-local `static bool wasDown` / `static unsigned long
  pressStartTime` of `Debounce::update` are process-wide state shared by all
  instances; they are modelled by the separate `Statics` record threaded
  through `update` alongside the instance state.
-/

namespace Debounce

/-- Masks and patterns from Debounce.cpp (16-bit). -/
def MASK : Nat := 0b1111000000111111

def RELEASE : Nat := 0b1111000000000000

def DOWN : Nat := 0b1111111111111111

def UP : Nat := 0b0000000000000000

def PRESS : Nat := 0b0000000000111111

def CLEAR : Nat := 0b0000000000000000

def SET : Nat := 0b1111111111111111

/-- DoublePressState enum from Debounce.h. -/
inductive DPState where
  | DP_IDLE
  | DP_FIRST_DETECTED
  | DP_AWAITING_SECOND
  | DP_DETECTED
  | DP_COOLDOWN
deriving DecidableEq, Repr

open DPState

/-- Instance fields of class Debounce (Debounce.h).  Callback pointers are not
stored; callback invocations are reported through `Events`. -/
structure State where
  buttonHistory : Nat
  active : Bool
  prevState : Bool
  doublePressEnabled : Bool
  doublePressWindow : Nat
  dpState : DPState
  firstPressTime : Nat
  isDoublePressedFlag : Bool
  longPressTime : Nat
  longPressDetected : Bool
deriving DecidableEq, Repr

/-- The function-local `static` variables of `Debounce::update` (shared by all
instances of the class; initialized once at program start). -/
structure Statics where
  wasDown : Bool
  pressStartTime : Nat
deriving DecidableEq, Repr

/-- Initial values of the `static` locals (`false` / `0`). -/
def initStatics : Statics := { wasDown := false, pressStartTime := 0 }

/-- Which callbacks fire during one `update` tick. -/
structure Events where
  pressed : Bool
  released : Bool
  doublePress : Bool
  longPressStart : Bool
  longPressEnd : Bool
deriving DecidableEq, Repr

/-- Wrapping `unsigned long` subtraction (32-bit), for `millis() - t0`. -/
def usub (a b : Nat) : Nat := (a + 4294967296 - b % 4294967296) % 4294967296

/-- Debounce::Debounce(uint8_t buttonPin): active HIGH, history 0. -/
def mkDebounce1 : State :=
  { buttonHistory := 0
    active := true
    prevState := false
    doublePressEnabled := false
    doublePressWindow := 300
    dpState := DP_IDLE
    firstPressTime := 0
    isDoublePressedFlag := false
    longPressTime := 1000
    longPressDetected := false }

/-- Debounce::Debounce(uint8_t buttonPin, uint8_t logicLevel):
history is 0xFFFF when active LOW, 0x0000 when active HIGH. -/
def mkDebounce2 (logicLevel : Bool) : State :=
  { buttonHistory := if logicLevel = false then 0xFFFF else 0x0000
    active := logicLevel
    prevState := false
    doublePressEnabled := false
    doublePressWindow := 300
    dpState := DP_IDLE
    firstPressTime := 0
    isDoublePressedFlag := false
    longPressTime := 1000
    longPressDetected := false }

/-- Debounce::readButton, given the configured active level and the raw pin
level read by `digitalRead`. -/
def readButton (active : Bool) (pin : Bool) : Bool :=
  if active = false ∧ pin = false then true
  else if active = true ∧ pin = true then true
  else false

/-- Debounce::isPressed (consuming read): returns the result and the state
after the side effect on `_buttonHistory`. -/
def isPressed (s : State) : Bool × State :=
  if s.buttonHistory &&& MASK = PRESS then
    (true, { s with buttonHistory := SET })
  else
    (false, s)

/-- Debounce::isReleased (consuming read). -/
def isReleased (s : State) : Bool × State :=
  if MASK &&& s.buttonHistory = RELEASE then
    (true, { s with buttonHistory := CLEAR })
  else
    (false, s)

/-- Debounce::isDown. -/
def isDown (s : State) : Bool := s.buttonHistory == DOWN

/-- Debounce::isUp. -/
def isUp (s : State) : Bool := s.buttonHistory == UP

/-- Debounce::stateChanged. -/
def stateChanged (s : State) : Bool := isDown s != s.prevState

/-- Debounce::isDoublePressed (self-clearing read). -/
def isDoublePressed (s : State) : Bool × State :=
  if s.doublePressEnabled = false then (false, s)
  else if s.isDoublePressedFlag then
    (true, { s with isDoublePressedFlag := false })
  else
    (false, s)

/-- Debounce::enableDoublePressDetection. -/
def enableDoublePressDetection (s : State) (enable : Bool) : State :=
  { s with doublePressEnabled := enable, dpState := DP_IDLE }

/-- Debounce::setDoublePressWindow. -/
def setDoublePressWindow (s : State) (windowMs : Nat) : State :=
  { s with doublePressWindow := windowMs }

/-- Debounce::setLongPressTime. -/
def setLongPressTime (s : State) (timeMs : Nat) : State :=
  { s with longPressTime := timeMs }

/-- Debounce::updateDoublePress at tick time `t`; the returned `Bool` records
whether the double-press callback fires during this call. -/
def updateDoublePress (s : State) (t : Nat) : State × Bool :=
  match s.dpState with
  | DP_IDLE =>
      let pr := isPressed s
      if pr.1 then
        ({ pr.2 with dpState := DP_FIRST_DETECTED, firstPressTime := t }, false)
      else (pr.2, false)
  | DP_FIRST_DETECTED =>
      let rr := isReleased s
      if rr.1 then ({ rr.2 with dpState := DP_AWAITING_SECOND }, false)
      else (rr.2, false)
  | DP_AWAITING_SECOND =>
      let pr := isPressed s
      if pr.1 then
        if usub t s.firstPressTime < s.doublePressWindow then
          ({ pr.2 with dpState := DP_DETECTED, isDoublePressedFlag := true }, true)
        else
          ({ pr.2 with dpState := DP_FIRST_DETECTED, firstPressTime := t }, false)
      else if usub t s.firstPressTime ≥ s.doublePressWindow then
        ({ pr.2 with dpState := DP_IDLE }, false)
      else (pr.2, false)
  | DP_DETECTED =>
      let rr := isReleased s
      if rr.1 then ({ rr.2 with dpState := DP_COOLDOWN }, false)
      else (rr.2, false)
  | DP_COOLDOWN =>
      if usub t s.firstPressTime ≥ 50 then
        ({ s with isDoublePressedFlag := false, dpState := DP_IDLE }, false)
      else (s, false)

/-- Long-press section at the end of `Debounce::update` (the code guarded by
the `static` locals).  `ev` carries the already-computed `buttonPressed`,
`buttonReleased` and double-press-callback flags of this tick, which are
passed through into the `Events` record of the tick. -/
def longPressSection (s4 : State) (g : Statics) (t : Nat) (ev : Bool × Bool × Bool) :
    State × Statics × Events :=
  if isDown s4 then
    if g.wasDown = false then
      ({ s4 with longPressDetected := false },
       { wasDown := true, pressStartTime := t },
       { pressed := ev.1, released := ev.2.1, doublePress := ev.2.2,
         longPressStart := false, longPressEnd := false })
    else if s4.longPressDetected = false ∧ usub t g.pressStartTime ≥ s4.longPressTime then
      ({ s4 with longPressDetected := true }, g,
       { pressed := ev.1, released := ev.2.1, doublePress := ev.2.2,
         longPressStart := true, longPressEnd := false })
    else
      (s4, g,
       { pressed := ev.1, released := ev.2.1, doublePress := ev.2.2,
         longPressStart := false, longPressEnd := false })
  else
    if g.wasDown = true then
      (s4, { g with wasDown := false },
       { pressed := ev.1, released := ev.2.1, doublePress := ev.2.2,
         longPressStart := false, longPressEnd := s4.longPressDetected })
    else
      (s4, g,
       { pressed := ev.1, released := ev.2.1, doublePress := ev.2.2,
         longPressStart := false, longPressEnd := false })

/-- Debounce::update at tick time `t` with raw pin level `pin`.  Returns the
new instance state, the new values of the shared `static` locals, and the
callbacks fired this tick. -/
def update (s : State) (g : Statics) (pin : Bool) (t : Nat) :
    State × Statics × Events :=
  let s1 := { s with buttonHistory := (s.buttonHistory <<< 1) % 65536 }
  let s2 := { s1 with
    buttonHistory := s1.buttonHistory ||| (readButton s1.active pin).toNat }
  let s3 := { s2 with prevState := isDown s2 }
  let pr := isPressed s3
  let rr := isReleased pr.2
  let dp := if rr.2.doublePressEnabled then updateDoublePress rr.2 t
            else (rr.2, false)
  longPressSection dp.1 g t (pr.1, rr.1, dp.2)

/-- Run a sequence of ticks; each input is a raw pin level with its tick
time.  Returns the final instance state, the final `static` locals and the
per-tick event records. -/
def run (s : State) (g : Statics) :
    List (Bool × Nat) → State × Statics × List Events
  | [] => (s, g, [])
  | (pin, t) :: rest =>
      let r := update s g pin t
      let r' := run r.1 r.2.1 rest
      (r'.1, r'.2.1, r.2.2 :: r'.2.2)

/-- Run two Debounce instances from one program.  Each schedule entry
`(onA, pin, t)` calls `update` on instance A (when `onA` is true) or on
instance B, with the raw pin level of that instance and the tick time; the
function-local `static` variables `g` are shared by both instances, exactly as
in the C++ source.  Events are tagged with the instance they belong to. -/
def run2 (sA sB : State) (g : Statics) :
    List (Bool × Bool × Nat) → State × State × Statics × List (Bool × Events)
  | [] => (sA, sB, g, [])
  | (onA, pin, t) :: rest =>
      if onA then
        let r := update sA g pin t
        let r' := run2 r.1 sB r.2.1 rest
        (r'.1, r'.2.1, r'.2.2.1, (true, r.2.2) :: r'.2.2.2)
      else
        let r := update sB g pin t
        let r' := run2 sA r.1 r.2.1 rest
        (r'.1, r'.2.1, r'.2.2.1, (false, r.2.2) :: r'.2.2.2)

/-- Application polling loop for `isDoublePressed`: after every tick the
application calls `isDoublePressed()` once (threading its self-clearing side
effect) and records the result. -/
def runPollDouble (s : State) (g : Statics) :
    List (Bool × Nat) → State × Statics × List Bool
  | [] => (s, g, [])
  | (pin, t) :: rest =>
      let r := update s g pin t
      let q := isDoublePressed r.1
      let r' := runPollDouble q.2 r.2.1 rest
      (r'.1, r'.2.1, q.1 :: r'.2.2)

/-!  Pure model of the per-tick evolution of `_buttonHistory` inside `update`:
shift in the sample, then apply the consuming `isPressed()` read, then the
consuming `isReleased()` read.  `relP`/`relR` are the history side effects of
those two reads, and `pressedAt`/`releasedAt` the values they return inside
`update` (the double-press machine and the long-press section never modify
`_buttonHistory`, which is proved below).  -/

/-- History after the two shift/or statements at the top of `update`. -/
def shiftIn (h : Nat) (b : Bool) : Nat := ((h <<< 1) % 65536) ||| b.toNat

/-- Side effect of `isPressed()` on the history. -/
def relP (x : Nat) : Nat := if x &&& MASK = PRESS then SET else x

/-- Side effect of `isReleased()` on the history. -/
def relR (x : Nat) : Nat := if MASK &&& x = RELEASE then CLEAR else x

/-- Combined history side effect of the two consuming reads in `update`. -/
def consume (x : Nat) : Nat := relR (relP x)

/-- History at the end of one `update` tick, as a pure function. -/
def histStep (h : Nat) (b : Bool) : Nat := consume (shiftIn h b)

/-- Value of `buttonPressed` computed inside `update` for this tick. -/
def pressedAt (h : Nat) (b : Bool) : Bool := decide (shiftIn h b &&& MASK = PRESS)

/-- Value of `buttonReleased` computed inside `update` for this tick (it is
read after `isPressed()` has already acted on the history). -/
def releasedAt (h : Nat) (b : Bool) : Bool :=
  decide (MASK &&& relP (shiftIn h b) = RELEASE)

/-- History after a list of normalized samples. -/
def histFold (h : Nat) (bs : List Bool) : Nat := bs.foldl histStep h

/-- Per-tick `buttonPressed` values along a run of normalized samples. -/
def pressedRun (h : Nat) : List Bool → List Bool
  | [] => []
  | b :: bs => pressedAt h b :: pressedRun (histStep h b) bs

/-- Per-tick `buttonReleased` values along a run of normalized samples. -/
def releasedRun (h : Nat) : List Bool → List Bool
  | [] => []
  | b :: bs => releasedAt h b :: releasedRun (histStep h b) bs

end Debounce

namespace DebounceSimple

/-!
The older variant src/src/Debounce.cpp: same constructors, masks and
classification reads, but `update` only shifts in the new sample and refreshes
`_prevState`; it performs no consuming reads, no callbacks and has no
double-press or long-press machinery.
-/

/-- Instance fields of the class Debounce of the older variant. -/
structure State where
  buttonHistory : Nat
  active : Bool
  prevState : Bool
deriving DecidableEq, Repr

/-- Debounce::update of src/src/Debounce.cpp: shift in the new reading, then
refresh `_prevState` from `isDown()`. -/
def update (s : State) (pin : Bool) : State :=
  let s1 := { s with buttonHistory := (s.buttonHistory <<< 1) % 65536 }
  let s2 := { s1 with
    buttonHistory := s1.buttonHistory ||| (Debounce.readButton s1.active pin).toNat }
  { s2 with prevState := s2.buttonHistory == Debounce.DOWN }

/-- Debounce::isDown of the older variant. -/
def isDown (s : State) : Bool := s.buttonHistory == Debounce.DOWN

/-- Debounce::isUp of the older variant. -/
def isUp (s : State) : Bool := s.buttonHistory == Debounce.UP

/-- Feed a list of raw pin samples through `update`. -/
def runSamples (s : State) : List Bool → State
  | [] => s
  | pin :: rest => runSamples (update s pin) rest

/-- Numeric value of a bit list read MSB-first (the oldest sample first, the
newest sample in bit 0) — the contents of a shift register that received the
list left to right. -/
def encodeBits (bs : List Bool) : Nat := bs.foldl (fun a b => 2 * a + b.toNat) 0

end DebounceSimple

namespace Scenario

open Debounce

/-- Raw C3 scenario: double-press window 300 ms; a clean press whose 6th
asserted sample lands at t = 0, a clean release at t = 100, and a second clean
press at t = 200, inside the window. -/
def c3State : State := setDoublePressWindow (enableDoublePressDetection mkDebounce1 true) 300

/-- Tick inputs of the C3 scenario (pin level, millis). -/
def c3Input : List (Bool × Nat) :=
  List.replicate 6 ((true : Bool), (0 : Nat)) ++ List.replicate 6 ((false : Bool), (100 : Nat))
    ++ List.replicate 6 ((true : Bool), (200 : Nat))

/-- C6 solo schedule: only instance A is polled; the press on A completes at t = 0
and A stays down through t = 1000 (ticks every 100 ms). -/
def c6SchedSolo : List (Bool × Bool × Nat) :=
  List.replicate 6 ((true : Bool), (true : Bool), (0 : Nat))
    ++ (List.range 10).map (fun i => ((true : Bool), (true : Bool), 100 * (i + 1)))

/-- C6 interleaved schedule: the same A ticks, but after each of them instance
B (whose button is up the whole time) is also polled at the same time. -/
def c6SchedBoth : List (Bool × Bool × Nat) :=
  c6SchedSolo.flatMap (fun e => [e, ((false : Bool), (false : Bool), e.2.2)])

/-- C7 scenario: a clean press (6 asserted samples) followed by one deasserted
sample, which takes the debounced state from down back to not-down. -/
def c7Input : List (Bool × Nat) :=
  List.replicate 6 ((true : Bool), (0 : Nat)) ++ [((false : Bool), (100 : Nat))]

/-- C8 scenario: press completes at t = 0, held through t = 1000 so the long
press fires, then released (first deasserted sample at t = 1100). -/
def c8Input : List (Bool × Nat) :=
  List.replicate 6 ((true : Bool), (0 : Nat))
    ++ (List.range 10).map (fun i => ((true : Bool), 100 * (i + 1)))
    ++ [((false : Bool), (1100 : Nat))]

/-- C9 scenario state: double-press detection enabled, window 300 ms. -/
def c9State : State := setDoublePressWindow (enableDoublePressDetection mkDebounce1 true) 300

/-- C9 scenario: a full physical double press — press at t = 0, release at
t = 100, second press at t = 200, release at t = 300 — with `isDoublePressed()`
polled once after every tick. -/
def c9Input : List (Bool × Nat) :=
  List.replicate 6 ((true : Bool), (0 : Nat)) ++ List.replicate 6 ((false : Bool), (100 : Nat))
    ++ List.replicate 6 ((true : Bool), (200 : Nat))
    ++ List.replicate 6 ((false : Bool), (300 : Nat))

/-- C2 counterexample input: 10 deasserted samples then 6 asserted samples
(times irrelevant), fed to the active-HIGH default instance. -/
def c2Input : List (Bool × Nat) :=
  List.replicate 10 ((false : Bool), (0 : Nat)) ++ List.replicate 6 ((true : Bool), (0 : Nat))

end Scenario
namespace Debounce

/-- Bitwise or with 1 on an even number is plus one. -/
theorem lor_one_of_even {y : Nat} (h : y % 2 = 0) : y ||| 1 = y + 1 := by
  apply Nat.eq_of_testBit_eq
  intro i
  cases i with
  | zero =>
      simp [Nat.testBit_zero, Nat.testBit_lor]
      omega
  | succ j =>
      rw [Nat.testBit_lor, Nat.testBit_succ, Nat.testBit_succ, Nat.testBit_succ]
      have h1 : (1 : Nat) / 2 = 0 := by norm_num
      have h2 : (y + 1) / 2 = y / 2 := by omega
      rw [h1, h2, Nat.zero_testBit, Bool.or_false]

/-- The two shift/or statements of `update` amount to a doubling modulo 2^16
plus the new bit; in particular the pre-consumption history is even whenever
the new sample is deasserted and odd whenever it is asserted. -/
theorem shiftIn_eq (h : Nat) (b : Bool) : shiftIn h b = h * 2 % 65536 + b.toNat := by
  have hy : h * 2 % 65536 % 2 = 0 := by
    rw [Nat.mod_mod_of_dvd _ (by norm_num : (2 : ℕ) ∣ 65536)]
    omega
  unfold shiftIn
  rw [Nat.shiftLeft_eq, pow_one]
  cases b with
  | false => simp
  | true => rw [show Bool.toNat true = 1 from rfl, lor_one_of_even hy]

theorem shiftIn_lt (h : Nat) (b : Bool) : shiftIn h b < 65536 := by
  rw [shiftIn_eq]
  have h1 : h * 2 % 65536 < 65536 := Nat.mod_lt _ (by norm_num)
  have h2 : h * 2 % 65536 % 2 = 0 := by
    rw [Nat.mod_mod_of_dvd _ (by norm_num : (2 : ℕ) ∣ 65536)]
    omega
  cases b <;> simp [Bool.toNat] <;> omega

/-- An even history can never match the press pattern (its low bit is 0). -/
theorem even_no_press {x : Nat} (h : x % 2 = 0) : ¬(x &&& MASK = PRESS) := by
  intro hEq
  have hb := congrArg (fun n => Nat.testBit n 0) hEq
  simp only [Nat.testBit_land] at hb
  rw [show Nat.testBit MASK 0 = true from by decide,
      show Nat.testBit PRESS 0 = true from by decide] at hb
  simp [Nat.testBit_zero] at hb
  omega

/-- An odd history can never match the release pattern (its low bit is 1). -/
theorem odd_no_release {x : Nat} (h : x % 2 = 1) : ¬(MASK &&& x = RELEASE) := by
  intro hEq
  have hb := congrArg (fun n => Nat.testBit n 0) hEq
  simp only [Nat.testBit_land] at hb
  rw [show Nat.testBit MASK 0 = true from by decide,
      show Nat.testBit RELEASE 0 = false from by decide] at hb
  simp [Nat.testBit_zero] at hb
  omega

/-- After the two consuming reads inside `update`, the history matches neither
the press pattern nor the release pattern. -/
theorem consume_ne (x : Nat) :
    ¬(consume x &&& MASK = PRESS) ∧ ¬(MASK &&& consume x = RELEASE) := by
  unfold consume relP relR
  by_cases hP : x &&& MASK = PRESS
  · rw [if_pos hP, if_neg (by decide : ¬(MASK &&& SET = RELEASE))]
    exact ⟨by decide, by decide⟩
  · rw [if_neg hP]
    by_cases hR : MASK &&& x = RELEASE
    · rw [if_pos hR]
      exact ⟨by decide, by decide⟩
    · rw [if_neg hR]
      exact ⟨hP, hR⟩

theorem consume_lt {x : Nat} (h : x < 65536) : consume x < 65536 := by
  unfold consume relP relR
  by_cases hP : x &&& MASK = PRESS
  · rw [if_pos hP]
    split <;> norm_num [SET, CLEAR]
  · rw [if_neg hP]
    split <;> [norm_num [CLEAR]; exact h]

theorem histStep_lt (h : Nat) (b : Bool) : histStep h b < 65536 :=
  consume_lt (shiftIn_lt h b)

theorem isPressed_fst_eq (s : State) :
    (isPressed s).1 = decide (s.buttonHistory &&& MASK = PRESS) := by
  unfold isPressed
  split <;> simp_all

theorem isPressed_of_no_match {s : State} (h : ¬(s.buttonHistory &&& MASK = PRESS)) :
    isPressed s = (false, s) := by
  unfold isPressed
  rw [if_neg h]

theorem isReleased_of_no_match {s : State} (h : ¬(MASK &&& s.buttonHistory = RELEASE)) :
    isReleased s = (false, s) := by
  unfold isReleased
  rw [if_neg h]

end Debounce
namespace Debounce

theorem isPressed_pos {s : State} (h : s.buttonHistory &&& MASK = PRESS) :
    isPressed s = (true, { s with buttonHistory := SET }) := by
  unfold isPressed
  rw [if_pos h]

theorem isReleased_pos {s : State} (h : MASK &&& s.buttonHistory = RELEASE) :
    isReleased s = (true, { s with buttonHistory := CLEAR }) := by
  unfold isReleased
  rw [if_pos h]

theorem updateDoublePress_active (s : State) (t : Nat) :
    (updateDoublePress s t).1.active = s.active := by
  cases hdp : s.dpState <;>
    simp only [updateDoublePress, hdp, isPressed, isReleased] <;>
    (repeat' split) <;> simp

theorem updateDoublePress_lpd (s : State) (t : Nat) :
    (updateDoublePress s t).1.longPressDetected = s.longPressDetected := by
  cases hdp : s.dpState <;>
    simp only [updateDoublePress, hdp, isPressed, isReleased] <;>
    (repeat' split) <;> simp

theorem updateDoublePress_lpt (s : State) (t : Nat) :
    (updateDoublePress s t).1.longPressTime = s.longPressTime := by
  cases hdp : s.dpState <;>
    simp only [updateDoublePress, hdp, isPressed, isReleased] <;>
    (repeat' split) <;> simp

theorem updateDoublePress_hist (s : State) (t : Nat)
    (hP : ¬(s.buttonHistory &&& MASK = PRESS))
    (hR : ¬(MASK &&& s.buttonHistory = RELEASE)) :
    (updateDoublePress s t).1.buttonHistory = s.buttonHistory := by
  cases hdp : s.dpState <;>
    simp only [updateDoublePress, hdp, isPressed_of_no_match hP,
      isReleased_of_no_match hR] <;>
    (repeat' split) <;> simp

theorem updateDoublePress_fired (s : State) (t : Nat)
    (hP : ¬(s.buttonHistory &&& MASK = PRESS)) :
    (updateDoublePress s t).2 = false := by
  cases hdp : s.dpState <;>
    simp only [updateDoublePress, hdp, isPressed_of_no_match hP, isReleased] <;>
    (repeat' split) <;> simp_all

theorem longPressSection_frame (s4 : State) (g : Statics) (t : Nat)
    (ev : Bool × Bool × Bool) :
    (longPressSection s4 g t ev).1.buttonHistory = s4.buttonHistory ∧
    (longPressSection s4 g t ev).1.active = s4.active ∧
    (longPressSection s4 g t ev).2.2.pressed = ev.1 ∧
    (longPressSection s4 g t ev).2.2.released = ev.2.1 ∧
    (longPressSection s4 g t ev).2.2.doublePress = ev.2.2 := by
  unfold longPressSection
  repeat' split
  all_goals simp

end Debounce
namespace Debounce

theorem update_core (s : State) (g : Statics) (pin : Bool) (t : Nat) :
    (update s g pin t).1.buttonHistory
        = histStep s.buttonHistory (readButton s.active pin) ∧
    (update s g pin t).1.active = s.active ∧
    (update s g pin t).2.2.pressed = pressedAt s.buttonHistory (readButton s.active pin) ∧
    (update s g pin t).2.2.released = releasedAt s.buttonHistory (readButton s.active pin) := by
  by_cases hp : shiftIn s.buttonHistory (readButton s.active pin) &&& MASK = PRESS
  · simp only [update, histStep, consume, relP, relR, pressedAt, releasedAt, shiftIn] at hp ⊢
    simp +decide [isPressed, isReleased, hp, longPressSection_frame]
    by_cases hd : s.doublePressEnabled = true <;>
      simp +decide [hd, hp, updateDoublePress_hist, updateDoublePress_active]
  · by_cases hr : MASK &&& shiftIn s.buttonHistory (readButton s.active pin) = RELEASE
    · simp only [update, histStep, consume, relP, relR, pressedAt, releasedAt, shiftIn]
        at hp hr ⊢
      simp +decide [isPressed, isReleased, hp, hr, longPressSection_frame]
      by_cases hd : s.doublePressEnabled = true <;>
        simp +decide [hd, hp, hr, updateDoublePress_hist, updateDoublePress_active]
    · simp only [update, histStep, consume, relP, relR, pressedAt, releasedAt, shiftIn]
        at hp hr ⊢
      simp +decide [isPressed, isReleased, hp, hr, longPressSection_frame]
      by_cases hd : s.doublePressEnabled = true <;>
        simp +decide [hd, hp, hr, updateDoublePress_hist, updateDoublePress_active]

end Debounce
namespace Debounce

theorem run_events_maps (s : State) (g : Statics) (ins : List (Bool × Nat)) :
    ((run s g ins).2.2).map Events.pressed
        = pressedRun s.buttonHistory (ins.map (fun pr => readButton s.active pr.1)) ∧
    ((run s g ins).2.2).map Events.released
        = releasedRun s.buttonHistory (ins.map (fun pr => readButton s.active pr.1)) := by
  induction ins generalizing s g with
  | nil => simp [run, pressedRun, releasedRun]
  | cons p rest ih =>
      obtain ⟨pin, t⟩ := p
      obtain ⟨h1, h2, h3, h4⟩ := update_core s g pin t
      obtain ⟨ih1, ih2⟩ := ih (update s g pin t).1 (update s g pin t).2.1
      simp only [run, List.map_cons, pressedRun, releasedRun]
      constructor
      · rw [h3, ih1, h1, h2]
      · rw [h4, ih2, h1, h2]

theorem histFold_cons (h : Nat) (b : Bool) (bs : List Bool) :
    histFold h (b :: bs) = histFold (histStep h b) bs := rfl

theorem histFold_append (h : Nat) (xs ys : List Bool) :
    histFold h (xs ++ ys) = histFold (histFold h xs) ys := by
  unfold histFold
  exact List.foldl_append _ _ _ _

theorem histFold_lt {h : Nat} (bs : List Bool) (hlt : h < 65536) :
    histFold h bs < 65536 := by
  induction bs generalizing h with
  | nil => exact hlt
  | cons b rest ih => exact ih (histStep_lt h b)

theorem pressedRun_append (h : Nat) (xs ys : List Bool) :
    pressedRun h (xs ++ ys) = pressedRun h xs ++ pressedRun (histFold h xs) ys := by
  induction xs generalizing h with
  | nil => simp [pressedRun, histFold]
  | cons b bs ih => simp [pressedRun, histFold_cons, ih]

theorem releasedRun_append (h : Nat) (xs ys : List Bool) :
    releasedRun h (xs ++ ys) = releasedRun h xs ++ releasedRun (histFold h xs) ys := by
  induction xs generalizing h with
  | nil => simp [releasedRun, histFold]
  | cons b bs ih => simp [releasedRun, histFold_cons, ih]

theorem pressedAt_false (h : Nat) : pressedAt h false = false := by
  unfold pressedAt
  rw [shiftIn_eq]
  have he : (h * 2 % 65536 + (false : Bool).toNat) % 2 = 0 := by
    simp only [Bool.toNat_false, Nat.add_zero]
    rw [Nat.mod_mod_of_dvd _ (by norm_num : (2 : ℕ) ∣ 65536)]
    omega
  exact decide_eq_false (even_no_press he)

theorem releasedAt_true (h : Nat) : releasedAt h true = false := by
  unfold releasedAt relP
  rw [shiftIn_eq]
  have ho : (h * 2 % 65536 + (true : Bool).toNat) % 2 = 1 := by
    simp only [Bool.toNat_true]
    have : h * 2 % 65536 % 2 = 0 := by
      rw [Nat.mod_mod_of_dvd _ (by norm_num : (2 : ℕ) ∣ 65536)]
      omega
    omega
  by_cases hp : h * 2 % 65536 + (true : Bool).toNat &&& MASK = PRESS
  · rw [if_pos hp]
    exact decide_eq_false (by decide)
  · rw [if_neg hp]
    exact decide_eq_false (odd_no_release ho)

theorem pressedRun_zeros (k : Nat) : ∀ h : Nat,
    pressedRun h (List.replicate k false) = List.replicate k false := by
  induction k with
  | zero => intro h; simp [pressedRun]
  | succ n ih =>
      intro h
      simp only [List.replicate_succ, pressedRun, pressedAt_false]
      rw [ih]

theorem releasedRun_ones (k : Nat) : ∀ h : Nat,
    releasedRun h (List.replicate k true) = List.replicate k false := by
  induction k with
  | zero => intro h; simp [releasedRun]
  | succ n ih =>
      intro h
      simp only [List.replicate_succ, releasedRun, releasedAt_true]
      rw [ih]

end Debounce
namespace Debounce

theorem testBit_of_mod {x m i : Nat} (hi : i < m) :
    x.testBit i = (x % 2 ^ m).testBit i := by
  rw [Nat.testBit_mod_two_pow]
  simp [hi]

/-- Doubling modulo 2^16 then reducing modulo a smaller power of two. -/
theorem double_mod (h j : Nat) (hj : j + 1 ≤ 16) :
    h * 2 % 65536 % 2 ^ (j + 1) = h % 2 ^ j * 2 := by
  have hdvd : (2 : ℕ) ^ (j + 1) ∣ 65536 := by
    rw [show (65536 : ℕ) = 2 ^ 16 from by norm_num]
    exact Nat.pow_dvd_pow 2 hj
  rw [Nat.mod_mod_of_dvd _ hdvd, pow_succ]
  exact Nat.mul_mod_mul_right 2 h (2 ^ j)

theorem mod_succ_of_mod {y m c : Nat} (hm : y % m = c) (hc : c + 1 < m) :
    (y + 1) % m = c + 1 := by
  have h0 := Nat.div_add_mod y m
  have h1 : y + 1 = (c + 1) + m * (y / m) := by omega
  rw [h1, Nat.mul_comm m (y / m), Nat.add_mul_mod_self_right]
  exact Nat.mod_eq_of_lt hc

theorem two_pow_sub_one_mod {m n : Nat} (h : m ≤ n) :
    (2 ^ n - 1) % 2 ^ m = 2 ^ m - 1 := by
  have hA : (2 : ℕ) ^ n = 2 ^ m * 2 ^ (n - m) := by
    rw [← pow_add]
    congr 1
    omega
  have h2 : (1 : ℕ) ≤ 2 ^ m := Nat.one_le_pow _ _ (by norm_num)
  obtain ⟨b, hb⟩ : ∃ b, (2 : ℕ) ^ (n - m) = b + 1 :=
    ⟨2 ^ (n - m) - 1, by
      have : (1 : ℕ) ≤ 2 ^ (n - m) := Nat.one_le_pow _ _ (by norm_num)
      omega⟩
  have key : (2 : ℕ) ^ n - 1 = 2 ^ m * b + (2 ^ m - 1) := by
    rw [hA, hb, Nat.mul_succ]
    omega
  rw [key, Nat.mul_add_mod]
  exact Nat.mod_eq_of_lt (by omega)

/-- Feeding deasserted samples builds up low zero bits (one per tick, up to
16), whatever the consuming reads do in between. -/
theorem histFold_zeros : ∀ (k j h : Nat), h < 65536 → j + k ≤ 16 → h % 2 ^ j = 0 →
    histFold h (List.replicate k false) % 2 ^ (j + k) = 0 ∧
    histFold h (List.replicate k false) < 65536 := by
  intro k
  induction k with
  | zero =>
      intro j h hlt _ hm
      simpa [histFold] using ⟨hm, hlt⟩
  | succ n ih =>
      intro j h hlt hle hm
      rw [List.replicate_succ, histFold_cons]
      have hx : shiftIn h false = h * 2 % 65536 := by
        rw [shiftIn_eq]
        simp
      have hxe : shiftIn h false % 2 = 0 := by
        rw [hx, Nat.mod_mod_of_dvd _ (by norm_num : (2 : ℕ) ∣ 65536)]
        omega
      have hxm : shiftIn h false % 2 ^ (j + 1) = 0 := by
        rw [hx, double_mod h j (by omega), hm]
      have hstep : histStep h false % 2 ^ (j + 1) = 0 ∧ histStep h false < 65536 := by
        unfold histStep consume relP relR
        rw [if_neg (even_no_press hxe)]
        by_cases hr : MASK &&& shiftIn h false = RELEASE
        · rw [if_pos hr]
          norm_num [CLEAR]
        · rw [if_neg hr]
          exact ⟨hxm, shiftIn_lt h false⟩
      have hres := ih (j + 1) (histStep h false) hstep.2 (by omega) hstep.1
      rw [show j + 1 + n = j + (n + 1) from by omega] at hres
      exact hres

/-- Feeding asserted samples builds up low one bits (one per tick, up to 10
are needed), whatever the consuming reads do in between. -/
theorem histFold_ones : ∀ (k j h : Nat), h < 65536 → j + k ≤ 10 →
    h % 2 ^ j = 2 ^ j - 1 →
    histFold h (List.replicate k true) % 2 ^ (j + k) = 2 ^ (j + k) - 1 ∧
    histFold h (List.replicate k true) < 65536 := by
  intro k
  induction k with
  | zero =>
      intro j h hlt _ hm
      simpa [histFold] using ⟨hm, hlt⟩
  | succ n ih =>
      intro j h hlt hle hm
      rw [List.replicate_succ, histFold_cons]
      have hy : h * 2 % 65536 % 2 ^ (j + 1) = 2 ^ (j + 1) - 2 := by
        rw [double_mod h j (by omega), hm]
        have h1 : (1 : ℕ) ≤ 2 ^ j := Nat.one_le_pow _ _ (by norm_num)
        rw [pow_succ]
        omega
      have hye : h * 2 % 65536 % 2 = 0 := by
        rw [Nat.mod_mod_of_dvd _ (by norm_num : (2 : ℕ) ∣ 65536)]
        omega
      have hx : shiftIn h true = h * 2 % 65536 + 1 := by
        rw [shiftIn_eq]
        rfl
      have hgt : (2 : ℕ) ≤ 2 ^ (j + 1) := by
        have : (2 : ℕ) ^ 1 ≤ 2 ^ (j + 1) := Nat.pow_le_pow_right (by norm_num) (by omega)
        simpa using this
      have hxm : shiftIn h true % 2 ^ (j + 1) = 2 ^ (j + 1) - 1 := by
        rw [hx]
        have := mod_succ_of_mod hy (by omega)
        rw [this]
        omega
      have hxo : shiftIn h true % 2 = 1 := by
        rw [hx]
        omega
      have hstep : histStep h true % 2 ^ (j + 1) = 2 ^ (j + 1) - 1 ∧
          histStep h true < 65536 := by
        unfold histStep consume relP relR
        by_cases hp : shiftIn h true &&& MASK = PRESS
        · rw [if_pos hp, if_neg (by decide : ¬(MASK &&& SET = RELEASE))]
          constructor
          · rw [show (SET : Nat) = 2 ^ 16 - 1 from by norm_num [SET]]
            exact two_pow_sub_one_mod (by omega)
          · norm_num [SET]
        · rw [if_neg hp, if_neg (odd_no_release hxo)]
          exact ⟨hxm, shiftIn_lt h true⟩
      have hres := ih (j + 1) (histStep h true) hstep.2 (by omega) hstep.1
      rw [show j + 1 + n = j + (n + 1) from by omega] at hres
      exact hres

end Debounce
namespace Debounce

/-- During the ones run that builds a press, before the 6th asserted sample
the low six bits are not yet all ones, so the press pattern cannot match. -/
theorem no_press_stage {x j : Nat} (hj : j ≤ 4)
    (hxm : x % 2 ^ (j + 11) = 2 ^ (j + 1) - 1) : ¬(x &&& MASK = PRESS) := by
  intro hEq
  have hb : x.testBit (j + 1) = false := by
    rw [testBit_of_mod (show j + 1 < j + 11 from by omega), hxm]
    exact Nat.testBit_eq_false_of_lt (Nat.sub_lt (by positivity) (by norm_num))
  have hc := congrArg (fun n => Nat.testBit n (j + 1)) hEq
  simp only [Nat.testBit_land] at hc
  have hM : Nat.testBit MASK (j + 1) = true := by
    interval_cases j <;> decide
  have hPp : Nat.testBit PRESS (j + 1) = true := by
    interval_cases j <;> decide
  rw [hb, hM, hPp] at hc
  simp at hc

/-- During the zeros run that builds a release, before the 6th deasserted
sample the low six bits are not yet all zeros, so the release pattern cannot
match. -/
theorem no_release_stage {x j : Nat} (hj : j ≤ 4)
    (hxm : x % 2 ^ (j + 11) = 2 ^ (j + 11) - 2 ^ (j + 1)) :
    ¬(MASK &&& x = RELEASE) := by
  intro hEq
  have hb : x.testBit (j + 1) = true := by
    rw [testBit_of_mod (show j + 1 < j + 11 from by omega), hxm]
    interval_cases j <;> decide
  have hc := congrArg (fun n => Nat.testBit n (j + 1)) hEq
  simp only [Nat.testBit_land] at hc
  have hM : Nat.testBit MASK (j + 1) = true := by
    interval_cases j <;> decide
  have hRl : Nat.testBit RELEASE (j + 1) = false := by
    interval_cases j <;> decide
  rw [hb, hM, hRl] at hc
  simp at hc

/-- Ticks 1..5 of a clean press run: no press event yet, low ones pile up on
top of the ten zeros left by the deasserted prefix. -/
theorem pressRun_stages : ∀ (k j h : Nat), h < 65536 → j + k ≤ 5 →
    h % 2 ^ (j + 10) = 2 ^ j - 1 →
    pressedRun h (List.replicate k true) = List.replicate k false ∧
    histFold h (List.replicate k true) % 2 ^ (j + k + 10) = 2 ^ (j + k) - 1 ∧
    histFold h (List.replicate k true) < 65536 := by
  intro k
  induction k with
  | zero =>
      intro j h hlt _ hm
      simpa [pressedRun, histFold] using ⟨hm, hlt⟩
  | succ n ih =>
      intro j h hlt hle hm
      have hy : h * 2 % 65536 % 2 ^ (j + 11) = (2 ^ j - 1) * 2 := by
        rw [show j + 11 = (j + 10) + 1 from by omega, double_mod h (j + 10) (by omega), hm]
      have h1 : (1 : ℕ) ≤ 2 ^ j := Nat.one_le_pow _ _ (by norm_num)
      have hy' : h * 2 % 65536 % 2 ^ (j + 11) = 2 ^ (j + 1) - 2 := by
        rw [hy, pow_succ]
        omega
      have hye : h * 2 % 65536 % 2 = 0 := by
        rw [Nat.mod_mod_of_dvd _ (by norm_num : (2 : ℕ) ∣ 65536)]
        omega
      have hx : shiftIn h true = h * 2 % 65536 + 1 := by
        rw [shiftIn_eq]
        rfl
      have hgt : (4 : ℕ) ≤ 2 ^ (j + 11) := by
        have : (2 : ℕ) ^ 2 ≤ 2 ^ (j + 11) := Nat.pow_le_pow_right (by norm_num) (by omega)
        simpa using this
      have hp2 : (2 : ℕ) ^ (j + 1) ≤ 2 ^ (j + 11) := Nat.pow_le_pow_right (by norm_num) (by omega)
      have hp2' : (2 : ℕ) ≤ 2 ^ (j + 1) := by
        have : (2 : ℕ) ^ 1 ≤ 2 ^ (j + 1) := Nat.pow_le_pow_right (by norm_num) (by omega)
        simpa using this
      have hp2lt : (2 : ℕ) ^ (j + 1) < 2 ^ (j + 11) := by
        have : (2 : ℕ) ^ (j + 1) < 2 ^ (j + 11) :=
          Nat.pow_lt_pow_right (by norm_num) (by omega)
        exact this
      have hxm : shiftIn h true % 2 ^ (j + 11) = 2 ^ (j + 1) - 1 := by
        rw [hx, mod_succ_of_mod hy' (by omega)]
        omega
      have hxo : shiftIn h true % 2 = 1 := by
        rw [hx]
        omega
      have hnp : ¬(shiftIn h true &&& MASK = PRESS) := no_press_stage (by omega) hxm
      have hstepeq : histStep h true = shiftIn h true := by
        unfold histStep consume relP relR
        rw [if_neg hnp, if_neg (odd_no_release hxo)]
      have hpa : pressedAt h true = false := by
        unfold pressedAt
        exact decide_eq_false hnp
      have hres := ih (j + 1) (histStep h true) (by rw [hstepeq]; exact shiftIn_lt h true)
        (by omega) (by rw [hstepeq, show j + 1 + 10 = j + 11 from by omega]; exact hxm)
      rw [List.replicate_succ]
      refine ⟨?_, ?_, ?_⟩
      · simp [pressedRun, hpa, hres.1, List.replicate_succ]
      · rw [histFold_cons, show j + (n + 1) = j + 1 + n from by omega]
        exact hres.2.1
      · rw [histFold_cons]
        exact hres.2.2

/-- Ticks 1..5 of a clean release run: no release event yet, low zeros pile up
below the ten ones left by the asserted prefix. -/
theorem releaseRun_stages : ∀ (k j h : Nat), h < 65536 → j + k ≤ 5 →
    h % 2 ^ (j + 10) = 2 ^ (j + 10) - 2 ^ j →
    releasedRun h (List.replicate k false) = List.replicate k false ∧
    histFold h (List.replicate k false) % 2 ^ (j + k + 10)
        = 2 ^ (j + k + 10) - 2 ^ (j + k) ∧
    histFold h (List.replicate k false) < 65536 := by
  intro k
  induction k with
  | zero =>
      intro j h hlt _ hm
      simpa [releasedRun, histFold] using ⟨hm, hlt⟩
  | succ n ih =>
      intro j h hlt hle hm
      have hy : h * 2 % 65536 % 2 ^ (j + 11) = (2 ^ (j + 10) - 2 ^ j) * 2 := by
        rw [show j + 11 = (j + 10) + 1 from by omega, double_mod h (j + 10) (by omega), hm]
      have h1 : (1 : ℕ) ≤ 2 ^ j := Nat.one_le_pow _ _ (by norm_num)
      have h10 : (2 : ℕ) ^ j ≤ 2 ^ (j + 10) := Nat.pow_le_pow_right (by norm_num) (by omega)
      have ha : (2 : ℕ) ^ (j + 11) = 2 ^ (j + 10) * 2 := by
        rw [show j + 11 = (j + 10) + 1 from by omega, pow_succ]
      have hb2 : (2 : ℕ) ^ (j + 1) = 2 ^ j * 2 := by
        rw [pow_succ]
      have hy' : h * 2 % 65536 % 2 ^ (j + 11) = 2 ^ (j + 11) - 2 ^ (j + 1) := by
        rw [hy, ha, hb2]
        omega
      have hye : h * 2 % 65536 % 2 = 0 := by
        rw [Nat.mod_mod_of_dvd _ (by norm_num : (2 : ℕ) ∣ 65536)]
        omega
      have hx : shiftIn h false = h * 2 % 65536 := by
        rw [shiftIn_eq]
        simp
      have hxm : shiftIn h false % 2 ^ (j + 11) = 2 ^ (j + 11) - 2 ^ (j + 1) := by
        rw [hx]
        exact hy'
      have hxe : shiftIn h false % 2 = 0 := by
        rw [hx]
        exact hye
      have hnr : ¬(MASK &&& shiftIn h false = RELEASE) := no_release_stage (by omega) hxm
      have hstepeq : histStep h false = shiftIn h false := by
        unfold histStep consume relP relR
        rw [if_neg (even_no_press hxe), if_neg hnr]
      have hra : releasedAt h false = false := by
        unfold releasedAt relP
        rw [if_neg (even_no_press hxe)]
        exact decide_eq_false hnr
      have hres := ih (j + 1) (histStep h false) (by rw [hstepeq]; exact shiftIn_lt h false)
        (by omega) (by rw [hstepeq, show j + 1 + 10 = j + 11 from by omega]; exact hxm)
      rw [List.replicate_succ]
      refine ⟨?_, ?_, ?_⟩
      · simp [releasedRun, hra, hres.1, List.replicate_succ]
      · rw [histFold_cons, show j + (n + 1) = j + 1 + n from by omega]
        exact hres.2.1
      · rw [histFold_cons]
        exact hres.2.2

end Debounce
namespace Debounce

/-- The 6th asserted sample after ten deasserted ones: the press fires and the
history is forced to all ones. -/
theorem press_fire {h : Nat} (hlt : h < 65536) (hm : h % 2 ^ 15 = 2 ^ 5 - 1) :
    pressedAt h true = true ∧ histStep h true = 65535 := by
  have hm' : h % 32768 = 31 := by
    have e1 : (2 : ℕ) ^ 15 = 32768 := by norm_num
    have e2 : (2 : ℕ) ^ 5 - 1 = 31 := by norm_num
    rw [e1, e2] at hm
    exact hm
  have hy : h * 2 % 65536 = 62 := by omega
  have hx : shiftIn h true = 63 := by
    rw [shiftIn_eq, hy]
    rfl
  constructor
  · unfold pressedAt
    rw [hx]
    decide
  · unfold histStep
    rw [hx]
    decide

/-- The 6th deasserted sample after ten asserted ones: the release fires and
the history is cleared. -/
theorem release_fire {h : Nat} (hlt : h < 65536)
    (hm : h % 2 ^ 15 = 2 ^ 15 - 2 ^ 5) :
    releasedAt h false = true ∧ histStep h false = 0 := by
  have hm' : h % 32768 = 32736 := by
    rw [show (2 : ℕ) ^ 15 - 2 ^ 5 = 32736 from by norm_num] at hm
    rw [show (2 : ℕ) ^ 15 = 32768 from by norm_num] at hm
    exact hm
  have hy : h * 2 % 65536 = 65472 := by omega
  have hx : shiftIn h false = 65472 := by
    rw [shiftIn_eq, hy]
    rfl
  constructor
  · unfold releasedAt
    rw [hx]
    decide
  · unfold histStep
    rw [hx]
    decide

/-- Once the history is all ones and asserted samples keep coming, no further
press events fire. -/
theorem pressedRun_after_fire (k : Nat) :
    pressedRun 65535 (List.replicate k true) = List.replicate k false := by
  induction k with
  | zero => simp [pressedRun]
  | succ n ih =>
      rw [List.replicate_succ]
      have h1 : pressedAt 65535 true = false := by decide
      have h2 : histStep 65535 true = 65535 := by decide
      simp only [pressedRun, h1, h2]
      simp [ih, List.replicate_succ]

/-- Once the history is cleared and deasserted samples keep coming, no further
release events fire. -/
theorem releasedRun_after_fire (k : Nat) :
    releasedRun 0 (List.replicate k false) = List.replicate k false := by
  induction k with
  | zero => simp [releasedRun]
  | succ n ih =>
      rw [List.replicate_succ]
      have h1 : releasedAt 0 false = false := by decide
      have h2 : histStep 0 false = 0 := by decide
      simp only [releasedRun, h1, h2]
      simp [ih, List.replicate_succ]

/-- Pure form of the clean-press property: from any 16-bit history, feeding at
least ten deasserted samples and then asserted samples produces the press
event exactly at the 6th asserted tick. -/
theorem pressedRun_clean (h m n : Nat) (hlt : h < 65536) (hm : 10 ≤ m)
    (hn : 6 ≤ n) :
    pressedRun h (List.replicate m false ++ List.replicate n true)
      = List.replicate (m + 5) false ++ true :: List.replicate (n - 6) false := by
  obtain ⟨m0, rfl⟩ : ∃ m0, m = m0 + 10 := ⟨m - 10, by omega⟩
  obtain ⟨n0, rfl⟩ : ∃ n0, n = 6 + n0 := ⟨n - 6, by omega⟩
  set h1 := histFold h (List.replicate m0 false) with hh1
  have hlt1 : h1 < 65536 := histFold_lt _ hlt
  have hz := histFold_zeros 10 0 h1 hlt1 (by omega) (by simp [Nat.mod_one])
  set h2 := histFold h1 (List.replicate 10 false) with hh2
  have hm2 : h2 % 2 ^ 10 = 0 := by simpa using hz.1
  have hlt2 : h2 < 65536 := hz.2
  have hs := pressRun_stages 5 0 h2 hlt2 (by omega) (by simpa using hm2)
  set h3 := histFold h2 (List.replicate 5 true) with hh3
  have hm3 : h3 % 2 ^ 15 = 2 ^ 5 - 1 := by simpa using hs.2.1
  have hlt3 : h3 < 65536 := hs.2.2
  have hf := press_fire hlt3 hm3
  calc pressedRun h (List.replicate (m0 + 10) false ++ List.replicate (6 + n0) true)
      = pressedRun h (List.replicate m0 false ++ (List.replicate 10 false ++
          (List.replicate 5 true ++ (true :: List.replicate n0 true)))) := by
        rw [List.replicate_add, List.replicate_add]
        simp [List.append_assoc, List.replicate_succ]
    _ = List.replicate m0 false ++ (List.replicate 10 false ++
          (List.replicate 5 false ++ (true :: List.replicate n0 false))) := by
        rw [pressedRun_append, pressedRun_zeros, ← hh1]
        rw [pressedRun_append, pressedRun_zeros, ← hh2]
        rw [pressedRun_append, hs.1, ← hh3]
        have he : pressedRun h3 (true :: List.replicate n0 true)
            = true :: List.replicate n0 false := by
          simp [pressedRun, hf.1, hf.2, pressedRun_after_fire]
        rw [he]
    _ = List.replicate (m0 + 10 + 5) false ++ true :: List.replicate (6 + n0 - 6) false := by
        simp [List.replicate_add, List.append_assoc,
          show 6 + n0 - 6 = n0 from by omega]

/-- Pure form of the clean-release property: from any 16-bit history, feeding
at least ten asserted samples and then deasserted samples produces the release
event exactly at the 6th deasserted tick. -/
theorem releasedRun_clean (h m n : Nat) (hlt : h < 65536) (hm : 10 ≤ m)
    (hn : 6 ≤ n) :
    releasedRun h (List.replicate m true ++ List.replicate n false)
      = List.replicate (m + 5) false ++ true :: List.replicate (n - 6) false := by
  obtain ⟨m0, rfl⟩ : ∃ m0, m = m0 + 10 := ⟨m - 10, by omega⟩
  obtain ⟨n0, rfl⟩ : ∃ n0, n = 6 + n0 := ⟨n - 6, by omega⟩
  set h1 := histFold h (List.replicate m0 true) with hh1
  have hlt1 : h1 < 65536 := histFold_lt _ hlt
  have hz := histFold_ones 10 0 h1 hlt1 (by omega) (by simp [Nat.mod_one])
  set h2 := histFold h1 (List.replicate 10 true) with hh2
  have hm2 : h2 % 2 ^ 10 = 2 ^ 10 - 2 ^ 0 := by simpa using hz.1
  have hlt2 : h2 < 65536 := hz.2
  have hs := releaseRun_stages 5 0 h2 hlt2 (by omega) (by simpa using hm2)
  set h3 := histFold h2 (List.replicate 5 false) with hh3
  have hm3 : h3 % 2 ^ 15 = 2 ^ 15 - 2 ^ 5 := by simpa using hs.2.1
  have hlt3 : h3 < 65536 := hs.2.2
  have hf := release_fire hlt3 hm3
  calc releasedRun h (List.replicate (m0 + 10) true ++ List.replicate (6 + n0) false)
      = releasedRun h (List.replicate m0 true ++ (List.replicate 10 true ++
          (List.replicate 5 false ++ (false :: List.replicate n0 false)))) := by
        rw [List.replicate_add, List.replicate_add]
        simp [List.append_assoc, List.replicate_succ]
    _ = List.replicate m0 false ++ (List.replicate 10 false ++
          (List.replicate 5 false ++ (true :: List.replicate n0 false))) := by
        rw [releasedRun_append, releasedRun_ones, ← hh1]
        rw [releasedRun_append, releasedRun_ones, ← hh2]
        rw [releasedRun_append, hs.1, ← hh3]
        have he : releasedRun h3 (false :: List.replicate n0 false)
            = true :: List.replicate n0 false := by
          simp [releasedRun, hf.1, hf.2, releasedRun_after_fire]
        rw [he]
    _ = List.replicate (m0 + 10 + 5) false ++ true :: List.replicate (6 + n0 - 6) false := by
        simp [List.replicate_add, List.append_assoc,
          show 6 + n0 - 6 = n0 from by omega]

end Debounce
namespace Debounce

theorem isReleased_fst_eq (s : State) :
    (isReleased s).1 = decide (MASK &&& s.buttonHistory = RELEASE) := by
  unfold isReleased
  split <;> simp_all

/-- C1: for every run whose normalized input is deasserted for at least 10
consecutive ticks and then steadily asserted, the `buttonPressed` value that
`update` computes (and feeds to the press callback) is true at exactly one
tick — the 6th consecutive asserted sample — and false on every earlier and
every later tick of the run; symmetrically, for a run asserted for at least 10
ticks and then steadily deasserted, `buttonReleased` is true exactly at the
6th deasserted sample. -/
theorem c1_clean_transition_unique_press_release :
    (∀ (s : State) (g : Statics) (ins : List (Bool × Nat)) (m n : Nat),
        s.buttonHistory < 65536 → 10 ≤ m → 6 ≤ n →
        ins.map (fun pr => readButton s.active pr.1)
          = List.replicate m false ++ List.replicate n true →
        ((run s g ins).2.2).map Events.pressed
          = List.replicate (m + 5) false ++ true :: List.replicate (n - 6) false) ∧
    (∀ (s : State) (g : Statics) (ins : List (Bool × Nat)) (m n : Nat),
        s.buttonHistory < 65536 → 10 ≤ m → 6 ≤ n →
        ins.map (fun pr => readButton s.active pr.1)
          = List.replicate m true ++ List.replicate n false →
        ((run s g ins).2.2).map Events.released
          = List.replicate (m + 5) false ++ true :: List.replicate (n - 6) false) := by
  constructor
  · intro s g ins m n hlt hm hn hmap
    rw [(run_events_maps s g ins).1, hmap]
    exact pressedRun_clean _ m n hlt hm hn
  · intro s g ins m n hlt hm hn hmap
    rw [(run_events_maps s g ins).2, hmap]
    exact releasedRun_clean _ m n hlt hm hn

/-- Witness for C1: the default active-HIGH instance, 10 deasserted samples
then 6 asserted ones (and symmetrically), with the theorem applied at
m = 10, n = 6. -/
theorem c1_witness :
    ((run mkDebounce1 initStatics (List.replicate 10 ((false : Bool), (0 : Nat))
        ++ List.replicate 6 ((true : Bool), (0 : Nat)))).2.2).map Events.pressed
      = List.replicate (10 + 5) false ++ true :: List.replicate (6 - 6) false ∧
    ((run { mkDebounce1 with buttonHistory := 65535 } initStatics
        (List.replicate 10 ((true : Bool), (0 : Nat))
          ++ List.replicate 6 ((false : Bool), (0 : Nat)))).2.2).map Events.released
      = List.replicate (10 + 5) false ++ true :: List.replicate (6 - 6) false := by
  constructor
  · exact c1_clean_transition_unique_press_release.1 mkDebounce1 initStatics _ 10 6
      (by norm_num [mkDebounce1]) (by norm_num) (by norm_num) (by decide)
  · exact c1_clean_transition_unique_press_release.2
      { mkDebounce1 with buttonHistory := 65535 } initStatics _ 10 6
      (by norm_num [mkDebounce1]) (by norm_num) (by norm_num) (by decide)

/-- C4: after every call to `update` — from any state, with any sample and any
tick time — the history ANDed with the mask 0b1111000000111111 matches neither
the press pattern 0b0000000000111111 nor the release pattern
0b1111000000000000, and consequently any `isPressed()` or `isReleased()` call
made between two `update` calls (such as the ones inside `updateDoublePress`,
which run after the consuming reads of `update`) returns 0. -/
theorem c4_no_press_release_between_updates :
    ∀ (s : State) (g : Statics) (pin : Bool) (t : Nat),
      ((update s g pin t).1.buttonHistory &&& MASK == PRESS) = false ∧
      (MASK &&& (update s g pin t).1.buttonHistory == RELEASE) = false ∧
      (isPressed (update s g pin t).1).1 = false ∧
      (isReleased (update s g pin t).1).1 = false := by
  intro s g pin t
  obtain ⟨h1, _, _, _⟩ := update_core s g pin t
  obtain ⟨hp, hr⟩ := consume_ne (shiftIn s.buttonHistory (readButton s.active pin))
  refine ⟨?_, ?_, ?_, ?_⟩
  · rw [h1]
    unfold histStep
    exact beq_eq_false_iff_ne.mpr hp
  · rw [h1]
    unfold histStep
    exact beq_eq_false_iff_ne.mpr hr
  · rw [isPressed_fst_eq, h1]
    unfold histStep
    exact decide_eq_false hp
  · rw [isReleased_fst_eq, h1]
    unfold histStep
    exact decide_eq_false hr

end Debounce
namespace Debounce

theorem longPressSection_lpd (s4 : State) (g : Statics) (t : Nat)
    (ev : Bool × Bool × Bool) :
    (g.wasDown = false → (longPressSection s4 g t ev).2.1.wasDown = true →
        (longPressSection s4 g t ev).1.longPressDetected = false) ∧
    (g.wasDown = true → (longPressSection s4 g t ev).2.1.wasDown = false →
        (longPressSection s4 g t ev).1.longPressDetected = s4.longPressDetected) ∧
    ((longPressSection s4 g t ev).1.longPressDetected = true →
        s4.longPressDetected = true ∨ (longPressSection s4 g t ev).2.1.wasDown = true) := by
  unfold longPressSection
  repeat' split
  all_goals simp_all

/-- C8 (amended): the long-press has-fired flag is cleared exactly at the tick
where the tracked down-state goes from up to down (not at the down-to-up
transition, where it is left unchanged), and it can become newly true only
while the tracked down-state is true. -/
theorem c8_flag_reset_at_down_transition :
    ∀ (s : State) (g : Statics) (pin : Bool) (t : Nat),
      (g.wasDown = false → (update s g pin t).2.1.wasDown = true →
          (update s g pin t).1.longPressDetected = false) ∧
      (g.wasDown = true → (update s g pin t).2.1.wasDown = false →
          (update s g pin t).1.longPressDetected = s.longPressDetected) ∧
      ((update s g pin t).1.longPressDetected = true →
          s.longPressDetected = true ∨ (update s g pin t).2.1.wasDown = true) := by
  intro s g pin t
  obtain ⟨s4, ev, hu, hlpd⟩ :
      ∃ (s4 : State) (ev : Bool × Bool × Bool),
        update s g pin t = longPressSection s4 g t ev ∧
        s4.longPressDetected = s.longPressDetected := by
    refine ⟨_, _, rfl, ?_⟩
    split
    · rw [updateDoublePress_lpd]
      unfold isReleased isPressed
      repeat' split
      all_goals simp
    · unfold isReleased isPressed
      repeat' split
      all_goals simp
  rw [hu]
  have L := longPressSection_lpd s4 g t ev
  rw [hlpd] at L
  exact L

/-- Witness for C8 (amended): an instance whose history is already all ones
(debounced down) ticked once more with the static down-flag clear — a
down transition — ends the tick with the has-fired flag cleared. -/
theorem c8_witness :
    (update { mkDebounce1 with buttonHistory := 65535, longPressDetected := true }
        initStatics true 0).1.longPressDetected = false :=
  (c8_flag_reset_at_down_transition
    { mkDebounce1 with buttonHistory := 65535, longPressDetected := true }
    initStatics true 0).1 rfl (by decide)

end Debounce
namespace Debounce

theorem usub_eq_sub {a b : Nat} (hba : b ≤ a) (ha : a < 4294967296) :
    usub a b = a - b := by
  unfold usub
  rw [Nat.mod_eq_of_lt (show b < 4294967296 from by omega)]
  have h1 : a + 4294967296 - b = (a - b) + 4294967296 := by omega
  rw [h1, Nat.add_mod_right]
  exact Nat.mod_eq_of_lt (by omega)

/-- Per-tick characterization of the long-press section of `update`: how the
`static` locals, the has-fired flag and the two long-press events evolve as a
function of the debounced down-state after the tick, the previous `wasDown`
and the elapsed-time check. -/
theorem update_longpress_step (s : State) (g : Statics) (p : Bool) (t : Nat) :
    (update s g p t).1.longPressTime = s.longPressTime ∧
    (isDown (update s g p t).1 = true → g.wasDown = false →
        (update s g p t).2.1 = { wasDown := true, pressStartTime := t } ∧
        (update s g p t).1.longPressDetected = false ∧
        (update s g p t).2.2.longPressStart = false ∧
        (update s g p t).2.2.longPressEnd = false) ∧
    (isDown (update s g p t).1 = true → g.wasDown = true →
        s.longPressDetected = false → usub t g.pressStartTime ≥ s.longPressTime →
        (update s g p t).2.1 = g ∧
        (update s g p t).1.longPressDetected = true ∧
        (update s g p t).2.2.longPressStart = true ∧
        (update s g p t).2.2.longPressEnd = false) ∧
    (isDown (update s g p t).1 = true → g.wasDown = true →
        ¬(s.longPressDetected = false ∧ usub t g.pressStartTime ≥ s.longPressTime) →
        (update s g p t).2.1 = g ∧
        (update s g p t).1.longPressDetected = s.longPressDetected ∧
        (update s g p t).2.2.longPressStart = false ∧
        (update s g p t).2.2.longPressEnd = false) ∧
    (isDown (update s g p t).1 = false → g.wasDown = true →
        (update s g p t).2.1 = { g with wasDown := false } ∧
        (update s g p t).1.longPressDetected = s.longPressDetected ∧
        (update s g p t).2.2.longPressStart = false ∧
        (update s g p t).2.2.longPressEnd = s.longPressDetected) ∧
    (isDown (update s g p t).1 = false → g.wasDown = false →
        (update s g p t).2.1 = g ∧
        (update s g p t).1.longPressDetected = s.longPressDetected ∧
        (update s g p t).2.2.longPressStart = false ∧
        (update s g p t).2.2.longPressEnd = false) := by
  obtain ⟨s4, ev, hu, hlpd, hlpt⟩ :
      ∃ (s4 : State) (ev : Bool × Bool × Bool),
        update s g p t = longPressSection s4 g t ev ∧
        s4.longPressDetected = s.longPressDetected ∧
        s4.longPressTime = s.longPressTime := by
    refine ⟨_, _, rfl, ?_, ?_⟩
    · split
      · rw [updateDoublePress_lpd]
        unfold isReleased isPressed
        repeat' split
        all_goals simp
      · unfold isReleased isPressed
        repeat' split
        all_goals simp
    · split
      · rw [updateDoublePress_lpt]
        unfold isReleased isPressed
        repeat' split
        all_goals simp
      · unfold isReleased isPressed
        repeat' split
        all_goals simp
  have hframe := longPressSection_frame s4 g t ev
  have hdown2 : isDown (longPressSection s4 g t ev).1 = isDown s4 := by
    unfold isDown
    rw [hframe.1]
  rw [hu, hdown2]
  clear hu hframe
  unfold longPressSection
  by_cases hd : isDown s4 = true
  · rw [if_pos hd]
    by_cases hw : g.wasDown = false
    · rw [if_pos hw]
      simp_all
    · rw [if_neg hw]
      by_cases hf : s4.longPressDetected = false ∧ usub t g.pressStartTime ≥ s4.longPressTime
      · rw [if_pos hf]
        simp_all
      · rw [if_neg hf]
        simp_all
  · rw [if_neg hd]
    by_cases hw : g.wasDown = true
    · rw [if_pos hw]
      simp_all
    · rw [if_neg hw]
      simp_all

end Debounce

namespace Debounce

theorem run_cons_proj (s : State) (g : Statics) (p : Bool) (t : Nat)
    (xs : List (Bool × Nat)) :
    (run s g ((p, t) :: xs)).1 = (run (update s g p t).1 (update s g p t).2.1 xs).1 ∧
    (run s g ((p, t) :: xs)).2.1
        = (run (update s g p t).1 (update s g p t).2.1 xs).2.1 ∧
    (run s g ((p, t) :: xs)).2.2
        = (update s g p t).2.2 :: (run (update s g p t).1 (update s g p t).2.1 xs).2.2 :=
  ⟨rfl, rfl, rfl⟩

theorem run_append_proj (xs : List (Bool × Nat)) : ∀ (ys : List (Bool × Nat))
    (s : State) (g : Statics),
    (run s g (xs ++ ys)).1 = (run (run s g xs).1 (run s g xs).2.1 ys).1 ∧
    (run s g (xs ++ ys)).2.1 = (run (run s g xs).1 (run s g xs).2.1 ys).2.1 ∧
    (run s g (xs ++ ys)).2.2
        = (run s g xs).2.2 ++ (run (run s g xs).1 (run s g xs).2.1 ys).2.2 := by
  induction xs with
  | nil => intro ys s g; exact ⟨rfl, rfl, rfl⟩
  | cons x rest ih =>
      intro ys s g
      obtain ⟨p, t⟩ := x
      obtain ⟨i1, i2, i3⟩ := ih ys (update s g p t).1 (update s g p t).2.1
      refine ⟨?_, ?_, ?_⟩
      · show (run (update s g p t).1 (update s g p t).2.1 (rest ++ ys)).1 = _
        rw [i1]
        rfl
      · show (run (update s g p t).1 (update s g p t).2.1 (rest ++ ys)).2.1 = _
        rw [i2]
        rfl
      · show (update s g p t).2.2
            :: (run (update s g p t).1 (update s g p t).2.1 (rest ++ ys)).2.2 = _
        rw [i3]
        rfl

/-- Waiting phase of a long press: while the tracked down-state stays true and
every tick time is still inside the threshold window measured from
`pressStartTime`, nothing fires and nothing changes. -/
theorem lp_run_wait : ∀ (ins : List (Bool × Nat)) (s : State) (g : Statics),
    g.wasDown = true → s.longPressDetected = false → s.longPressTime = 1000 →
    g.pressStartTime + 1000 < 4294967296 →
    (∀ pr ∈ ins, g.pressStartTime ≤ pr.2 ∧ pr.2 < g.pressStartTime + 1000) →
    (∀ k, k < ins.length → isDown (run s g (ins.take (k + 1))).1 = true) →
    (run s g ins).2.1 = g ∧
    (run s g ins).1.longPressDetected = false ∧
    (run s g ins).1.longPressTime = 1000 ∧
    ((run s g ins).2.2).map Events.longPressStart = List.replicate ins.length false ∧
    ((run s g ins).2.2).map Events.longPressEnd = List.replicate ins.length false := by
  intro ins
  induction ins with
  | nil => intro s g hw hlpd hlpt _ _ _; exact ⟨rfl, hlpd, hlpt, rfl, rfl⟩
  | cons x rest ih =>
      intro s g hw hlpd hlpt hbound htime hdw
      obtain ⟨p, t⟩ := x
      have hd0 : isDown (update s g p t).1 = true := by
        have := hdw 0 (by simp)
        simpa [List.take_succ_cons] using this
      have ht0 := htime (p, t) (List.mem_cons_self _ _)
      have hstep := update_longpress_step s g p t
      have helapsed : usub t g.pressStartTime < 1000 := by
        rw [usub_eq_sub ht0.1 (by omega)]
        omega
      have hnof : ¬(s.longPressDetected = false
          ∧ usub t g.pressStartTime ≥ s.longPressTime) := by
        rw [hlpt]
        omega
      obtain ⟨hg', hlpd', hst', hen'⟩ := hstep.2.2.2.1 hd0 hw hnof
      rw [hlpd] at hlpd'
      have hlpt' : (update s g p t).1.longPressTime = 1000 := by
        rw [hstep.1, hlpt]
      have hdw' : ∀ k, k < rest.length →
          isDown (run (update s g p t).1 (update s g p t).2.1 (rest.take (k + 1))).1
            = true := by
        intro k hk
        have := hdw (k + 1) (by simpa using Nat.succ_lt_succ hk)
        rw [List.take_succ_cons] at this
        rw [← (run_cons_proj s g p t (rest.take (k + 1))).1]
        exact this
      have htime' : ∀ pr ∈ rest,
          (update s g p t).2.1.pressStartTime ≤ pr.2 ∧
          pr.2 < (update s g p t).2.1.pressStartTime + 1000 := by
        intro pr hpr
        rw [hg']
        exact htime pr (List.mem_cons_of_mem _ hpr)
      have hw' : (update s g p t).2.1.wasDown = true := by
        rw [hg']
        exact hw
      have hbound' : (update s g p t).2.1.pressStartTime + 1000 < 4294967296 := by
        rw [hg']
        exact hbound
      obtain ⟨r1, r2, r3, r4, r5⟩ := ih (update s g p t).1 (update s g p t).2.1
        hw' hlpd' hlpt' hbound' htime' hdw'
      obtain ⟨c1, c2, c3⟩ := run_cons_proj s g p t rest
      refine ⟨?_, ?_, ?_, ?_, ?_⟩
      · rw [c2, r1, hg']
      · rw [c1]
        exact r2
      · rw [c1]
        exact r3
      · rw [c3, List.map_cons, hst', r4]
        rfl
      · rw [c3, List.map_cons, hen', r5]
        rfl

/-- Fired phase of a long press: once the has-fired flag is set, further down
ticks fire nothing and change nothing. -/
theorem lp_run_fired : ∀ (ins : List (Bool × Nat)) (s : State) (g : Statics),
    g.wasDown = true → s.longPressDetected = true →
    (∀ k, k < ins.length → isDown (run s g (ins.take (k + 1))).1 = true) →
    (run s g ins).2.1 = g ∧
    (run s g ins).1.longPressDetected = true ∧
    ((run s g ins).2.2).map Events.longPressStart = List.replicate ins.length false ∧
    ((run s g ins).2.2).map Events.longPressEnd = List.replicate ins.length false := by
  intro ins
  induction ins with
  | nil => intro s g hw hlpd _; exact ⟨rfl, hlpd, rfl, rfl⟩
  | cons x rest ih =>
      intro s g hw hlpd hdw
      obtain ⟨p, t⟩ := x
      have hd0 : isDown (update s g p t).1 = true := by
        have := hdw 0 (by simp)
        simpa [List.take_succ_cons] using this
      have hstep := update_longpress_step s g p t
      have hnof : ¬(s.longPressDetected = false
          ∧ usub t g.pressStartTime ≥ s.longPressTime) := by
        rw [hlpd]
        simp
      obtain ⟨hg', hlpd', hst', hen'⟩ := hstep.2.2.2.1 hd0 hw hnof
      rw [hlpd] at hlpd'
      have hdw' : ∀ k, k < rest.length →
          isDown (run (update s g p t).1 (update s g p t).2.1 (rest.take (k + 1))).1
            = true := by
        intro k hk
        have := hdw (k + 1) (by simpa using Nat.succ_lt_succ hk)
        rw [List.take_succ_cons] at this
        rw [← (run_cons_proj s g p t (rest.take (k + 1))).1]
        exact this
      have hw' : (update s g p t).2.1.wasDown = true := by
        rw [hg']
        exact hw
      obtain ⟨r1, r2, r3, r4⟩ := ih (update s g p t).1 (update s g p t).2.1
        hw' hlpd' hdw'
      obtain ⟨c1, c2, c3⟩ := run_cons_proj s g p t rest
      refine ⟨?_, ?_, ?_, ?_⟩
      · rw [c2, r1, hg']
      · rw [c1]
        exact r2
      · rw [c3, List.map_cons, hst', r3]
        rfl
      · rw [c3, List.map_cons, hen', r4]
        rfl

end Debounce

namespace Debounce

/-- Tail of a long press after the start callback fired: any further down
ticks fire nothing, and the release tick fires exactly the end callback. -/
theorem lp_run_fired_release : ∀ (B' : List (Bool × Nat)) (pUp : Bool) (tEnd : Nat)
    (s : State) (g : Statics),
    g.wasDown = true → s.longPressDetected = true →
    (∀ k, k < B'.length → isDown (run s g (B'.take (k + 1))).1 = true) →
    isDown (run s g (B' ++ [(pUp, tEnd)])).1 = false →
    ((run s g (B' ++ [(pUp, tEnd)])).2.2).map Events.longPressStart
        = List.replicate (B'.length + 1) false ∧
    ((run s g (B' ++ [(pUp, tEnd)])).2.2).map Events.longPressEnd
        = List.replicate B'.length false ++ [true] := by
  intro B'
  induction B' with
  | nil =>
      intro pUp tEnd s g hw hlpd _ hup
      have hupd : isDown (update s g pUp tEnd).1 = false := hup
      have hstep := update_longpress_step s g pUp tEnd
      obtain ⟨hg', hlpd', hst', hen'⟩ := hstep.2.2.2.2.1 hupd hw
      constructor
      · show ((update s g pUp tEnd).2.2 :: []).map Events.longPressStart = _
        simp [hst']
      · show ((update s g pUp tEnd).2.2 :: []).map Events.longPressEnd = _
        simp [hen', hlpd]
  | cons x rest ih =>
      intro pUp tEnd s g hw hlpd hdw hup
      obtain ⟨p, t⟩ := x
      have hd0 : isDown (update s g p t).1 = true := by
        have h := hdw 0 (by simp)
        rw [List.take_succ_cons, List.take_zero] at h
        exact h
      have hstep := update_longpress_step s g p t
      have hnof : ¬(s.longPressDetected = false
          ∧ usub t g.pressStartTime ≥ s.longPressTime) := by
        rw [hlpd]
        simp
      obtain ⟨hg', hlpd', hst', hen'⟩ := hstep.2.2.2.1 hd0 hw hnof
      rw [hlpd] at hlpd'
      have hw' : (update s g p t).2.1.wasDown = true := by
        rw [hg']
        exact hw
      have hdw' : ∀ k, k < rest.length →
          isDown (run (update s g p t).1 (update s g p t).2.1 (rest.take (k + 1))).1
            = true := by
        intro k hk
        have h := hdw (k + 1) (by simpa using Nat.succ_lt_succ hk)
        rw [List.take_succ_cons] at h
        rw [← (run_cons_proj s g p t (rest.take (k + 1))).1]
        exact h
      have hup' : isDown (run (update s g p t).1 (update s g p t).2.1
          (rest ++ [(pUp, tEnd)])).1 = false := by
        rw [← (run_cons_proj s g p t (rest ++ [(pUp, tEnd)])).1]
        exact hup
      obtain ⟨r1, r2⟩ := ih pUp tEnd (update s g p t).1 (update s g p t).2.1
        hw' hlpd' hdw' hup'
      obtain ⟨_, _, c3⟩ := run_cons_proj s g p t (rest ++ [(pUp, tEnd)])
      constructor
      · rw [List.cons_append, c3, List.map_cons, hst', r1]
        rfl
      · rw [List.cons_append, c3, List.map_cons, hen', r2]
        rfl

/-- Down portion of a long press that reaches the threshold: ticks inside the
window fire nothing, the first tick at or past the threshold fires the start
callback, later down ticks fire nothing, and the release tick fires the end
callback. -/
theorem lp_run_wait_fire_release : ∀ (A : List (Bool × Nat)) (pB pUp : Bool)
    (tB tEnd : Nat) (B' : List (Bool × Nat)) (s : State) (g : Statics),
    g.wasDown = true → s.longPressDetected = false → s.longPressTime = 1000 →
    g.pressStartTime + 1000 < 4294967296 →
    (∀ pr ∈ A, g.pressStartTime ≤ pr.2 ∧ pr.2 < g.pressStartTime + 1000) →
    g.pressStartTime + 1000 ≤ tB → tB < 4294967296 →
    (∀ k, k < (A ++ (pB, tB) :: B').length →
      isDown (run s g ((A ++ (pB, tB) :: B').take (k + 1))).1 = true) →
    isDown (run s g ((A ++ (pB, tB) :: B') ++ [(pUp, tEnd)])).1 = false →
    ((run s g ((A ++ (pB, tB) :: B') ++ [(pUp, tEnd)])).2.2).map Events.longPressStart
        = List.replicate A.length false ++ true :: List.replicate (B'.length + 1) false ∧
    ((run s g ((A ++ (pB, tB) :: B') ++ [(pUp, tEnd)])).2.2).map Events.longPressEnd
        = List.replicate (A.length + (B'.length + 1)) false ++ [true] := by
  intro A
  induction A with
  | nil =>
      intro pB pUp tB tEnd B' s g hw hlpd hlpt hbound _ htB htB2 hdw hup
      have hd0 : isDown (update s g pB tB).1 = true := by
        have h := hdw 0 (by simp)
        rw [show ((List.nil ++ (pB, tB) :: B') : List (Bool × Nat)).take 1
            = [(pB, tB)] from by simp] at h
        exact h
      have hstep := update_longpress_step s g pB tB
      have helapsed : usub tB g.pressStartTime ≥ s.longPressTime := by
        rw [hlpt, usub_eq_sub (by omega) htB2]
        omega
      obtain ⟨hg', hlpd', hst', hen'⟩ := hstep.2.2.1 hd0 hw hlpd helapsed
      have hw' : (update s g pB tB).2.1.wasDown = true := by
        rw [hg']
        exact hw
      have hdw' : ∀ k, k < B'.length →
          isDown (run (update s g pB tB).1 (update s g pB tB).2.1 (B'.take (k + 1))).1
            = true := by
        intro k hk
        have h := hdw (k + 1) (by simpa using Nat.succ_lt_succ hk)
        rw [show (((List.nil ++ (pB, tB) :: B') : List (Bool × Nat)).take (k + 1 + 1))
            = (pB, tB) :: B'.take (k + 1) from by simp [List.take_succ_cons]] at h
        rw [← (run_cons_proj s g pB tB (B'.take (k + 1))).1]
        exact h
      have hup' : isDown (run (update s g pB tB).1 (update s g pB tB).2.1
          (B' ++ [(pUp, tEnd)])).1 = false := by
        rw [← (run_cons_proj s g pB tB (B' ++ [(pUp, tEnd)])).1]
        exact hup
      obtain ⟨r1, r2⟩ := lp_run_fired_release B' pUp tEnd
        (update s g pB tB).1 (update s g pB tB).2.1 hw' hlpd' hdw' hup'
      obtain ⟨_, _, c3⟩ := run_cons_proj s g pB tB (B' ++ [(pUp, tEnd)])
      constructor
      · show ((run s g ((pB, tB) :: (B' ++ [(pUp, tEnd)]))).2.2).map
            Events.longPressStart = _
        rw [c3, List.map_cons, hst', r1]
        rfl
      · show ((run s g ((pB, tB) :: (B' ++ [(pUp, tEnd)]))).2.2).map
            Events.longPressEnd = _
        rw [c3, List.map_cons, hen', r2]
        rw [show (List.nil : List (Bool × Nat)).length + (B'.length + 1)
            = B'.length + 1 from by simp]
        rw [List.replicate_succ, List.cons_append]
  | cons a A' ih =>
      intro pB pUp tB tEnd B' s g hw hlpd hlpt hbound htimes htB htB2 hdw hup
      obtain ⟨p, t⟩ := a
      have hd0 : isDown (update s g p t).1 = true := by
        have h := hdw 0 (by simp)
        rw [show (((p, t) :: A' ++ (pB, tB) :: B').take 1)
            = [(p, t)] from by simp] at h
        exact h
      have ht0 := htimes (p, t) (List.mem_cons_self _ _)
      have hstep := update_longpress_step s g p t
      have helapsed : usub t g.pressStartTime < 1000 := by
        rw [usub_eq_sub ht0.1 (by omega)]
        omega
      have hnof : ¬(s.longPressDetected = false
          ∧ usub t g.pressStartTime ≥ s.longPressTime) := by
        rw [hlpt]
        omega
      obtain ⟨hg', hlpd', hst', hen'⟩ := hstep.2.2.2.1 hd0 hw hnof
      rw [hlpd] at hlpd'
      have hlpt' : (update s g p t).1.longPressTime = 1000 := by
        rw [hstep.1, hlpt]
      have hw' : (update s g p t).2.1.wasDown = true := by
        rw [hg']
        exact hw
      have hbound' : (update s g p t).2.1.pressStartTime + 1000 < 4294967296 := by
        rw [hg']
        exact hbound
      have htimes' : ∀ pr ∈ A', (update s g p t).2.1.pressStartTime ≤ pr.2 ∧
          pr.2 < (update s g p t).2.1.pressStartTime + 1000 := by
        intro pr hpr
        rw [hg']
        exact htimes pr (List.mem_cons_of_mem _ hpr)
      have htB' : (update s g p t).2.1.pressStartTime + 1000 ≤ tB := by
        rw [hg']
        exact htB
      have hdw' : ∀ k, k < (A' ++ (pB, tB) :: B').length →
          isDown (run (update s g p t).1 (update s g p t).2.1
            ((A' ++ (pB, tB) :: B').take (k + 1))).1 = true := by
        intro k hk
        have h := hdw (k + 1) (by
          simp only [List.cons_append, List.length_cons]
          exact Nat.succ_lt_succ hk)
        rw [show (((p, t) :: A' ++ (pB, tB) :: B').take (k + 1 + 1))
            = (p, t) :: (A' ++ (pB, tB) :: B').take (k + 1) from by
          rw [List.cons_append, List.take_succ_cons]] at h
        rw [← (run_cons_proj s g p t ((A' ++ (pB, tB) :: B').take (k + 1))).1]
        exact h
      have hup' : isDown (run (update s g p t).1 (update s g p t).2.1
          ((A' ++ (pB, tB) :: B') ++ [(pUp, tEnd)])).1 = false := by
        rw [← (run_cons_proj s g p t ((A' ++ (pB, tB) :: B') ++ [(pUp, tEnd)])).1]
        exact hup
      obtain ⟨r1, r2⟩ := ih pB pUp tB tEnd B' (update s g p t).1 (update s g p t).2.1
        hw' hlpd' hlpt' hbound' htimes' htB' htB2 hdw' hup'
      obtain ⟨_, _, c3⟩ := run_cons_proj s g p t ((A' ++ (pB, tB) :: B') ++ [(pUp, tEnd)])
      constructor
      · show ((run s g ((p, t) :: ((A' ++ (pB, tB) :: B') ++ [(pUp, tEnd)]))).2.2).map
            Events.longPressStart = _
        rw [c3, List.map_cons, hst', r1]
        rfl
      · show ((run s g ((p, t) :: ((A' ++ (pB, tB) :: B') ++ [(pUp, tEnd)]))).2.2).map
            Events.longPressEnd = _
        rw [c3, List.map_cons, hen', r2]
        rw [show ((p, t) :: A').length + (B'.length + 1)
            = (A'.length + (B'.length + 1)) + 1 from by
          simp only [List.length_cons]
          omega]
        rw [List.replicate_succ, List.cons_append]

end Debounce

namespace Debounce

/-- Down portion of a press released before the threshold: no tick fires the
start callback, and the release tick does not fire the end callback either
(the has-fired flag is still clear). -/
theorem lp_run_wait_release : ∀ (A : List (Bool × Nat)) (pUp : Bool) (tEnd : Nat)
    (s : State) (g : Statics),
    g.wasDown = true → s.longPressDetected = false → s.longPressTime = 1000 →
    g.pressStartTime + 1000 < 4294967296 →
    (∀ pr ∈ A, g.pressStartTime ≤ pr.2 ∧ pr.2 < g.pressStartTime + 1000) →
    (∀ k, k < A.length → isDown (run s g (A.take (k + 1))).1 = true) →
    isDown (run s g (A ++ [(pUp, tEnd)])).1 = false →
    ((run s g (A ++ [(pUp, tEnd)])).2.2).map Events.longPressStart
        = List.replicate (A.length + 1) false ∧
    ((run s g (A ++ [(pUp, tEnd)])).2.2).map Events.longPressEnd
        = List.replicate (A.length + 1) false := by
  intro A
  induction A with
  | nil =>
      intro pUp tEnd s g hw hlpd _ _ _ _ hup
      have hupd : isDown (update s g pUp tEnd).1 = false := hup
      have hstep := update_longpress_step s g pUp tEnd
      obtain ⟨hg', hlpd', hst', hen'⟩ := hstep.2.2.2.2.1 hupd hw
      constructor
      · show ((update s g pUp tEnd).2.2 :: []).map Events.longPressStart = _
        simp [hst']
      · show ((update s g pUp tEnd).2.2 :: []).map Events.longPressEnd = _
        simp [hen', hlpd]
  | cons a A' ih =>
      intro pUp tEnd s g hw hlpd hlpt hbound htimes hdw hup
      obtain ⟨p, t⟩ := a
      have hd0 : isDown (update s g p t).1 = true := by
        have h := hdw 0 (by simp)
        rw [List.take_succ_cons, List.take_zero] at h
        exact h
      have ht0 := htimes (p, t) (List.mem_cons_self _ _)
      have hstep := update_longpress_step s g p t
      have hnof : ¬(s.longPressDetected = false
          ∧ usub t g.pressStartTime ≥ s.longPressTime) := by
        have helapsed : usub t g.pressStartTime < 1000 := by
          rw [usub_eq_sub ht0.1 (by omega)]
          omega
        rw [hlpt]
        omega
      obtain ⟨hg', hlpd', hst', hen'⟩ := hstep.2.2.2.1 hd0 hw hnof
      rw [hlpd] at hlpd'
      have hlpt' : (update s g p t).1.longPressTime = 1000 := by
        rw [hstep.1, hlpt]
      have hw' : (update s g p t).2.1.wasDown = true := by
        rw [hg']
        exact hw
      have hbound' : (update s g p t).2.1.pressStartTime + 1000 < 4294967296 := by
        rw [hg']
        exact hbound
      have htimes' : ∀ pr ∈ A', (update s g p t).2.1.pressStartTime ≤ pr.2 ∧
          pr.2 < (update s g p t).2.1.pressStartTime + 1000 := by
        intro pr hpr
        rw [hg']
        exact htimes pr (List.mem_cons_of_mem _ hpr)
      have hdw' : ∀ k, k < A'.length →
          isDown (run (update s g p t).1 (update s g p t).2.1 (A'.take (k + 1))).1
            = true := by
        intro k hk
        have h := hdw (k + 1) (by simpa using Nat.succ_lt_succ hk)
        rw [List.take_succ_cons] at h
        rw [← (run_cons_proj s g p t (A'.take (k + 1))).1]
        exact h
      have hup' : isDown (run (update s g p t).1 (update s g p t).2.1
          (A' ++ [(pUp, tEnd)])).1 = false := by
        rw [← (run_cons_proj s g p t (A' ++ [(pUp, tEnd)])).1]
        exact hup
      obtain ⟨r1, r2⟩ := ih pUp tEnd (update s g p t).1 (update s g p t).2.1
        hw' hlpd' hlpt' hbound' htimes' hdw' hup'
      obtain ⟨_, _, c3⟩ := run_cons_proj s g p t (A' ++ [(pUp, tEnd)])
      constructor
      · rw [List.cons_append, c3, List.map_cons, hst', r1]
        rfl
      · rw [List.cons_append, c3, List.map_cons, hen', r2]
        rfl

end Debounce

namespace Debounce

/-- C5: with the default 1000 ms threshold and a single instance, for every
run that starts at a down transition (tracked down-state goes from up to
down at a tick at time t0) and keeps the debounced state down through an
arbitrary polling schedule: if some down tick occurs at or after t0 + 1000
(the button is continuously down for at least the threshold), the
long-press-start callback fires exactly once, at the first tick whose time
reaches t0 + 1000, and the long-press-end callback fires exactly once, at the
tick where the debounced state goes back up; if instead every down tick stays
below t0 + 1000 (released before the threshold), neither callback fires. -/
theorem c5_long_press_threshold :
    (∀ (s : State) (g : Statics) (pDown pB pUp : Bool) (t0 tB tEnd : Nat)
        (A B' : List (Bool × Nat)),
        s.longPressTime = 1000 → g.wasDown = false →
        t0 + 1000 < 4294967296 →
        (∀ pr ∈ A, t0 ≤ pr.2 ∧ pr.2 < t0 + 1000) →
        t0 + 1000 ≤ tB → tB < 4294967296 →
        (∀ k, k < ((pDown, t0) :: (A ++ (pB, tB) :: B')).length →
          isDown (run s g (((pDown, t0) :: (A ++ (pB, tB) :: B')).take (k + 1))).1
            = true) →
        isDown (run s g (((pDown, t0) :: (A ++ (pB, tB) :: B'))
            ++ [(pUp, tEnd)])).1 = false →
        ((run s g (((pDown, t0) :: (A ++ (pB, tB) :: B'))
              ++ [(pUp, tEnd)])).2.2).map Events.longPressStart
          = List.replicate (A.length + 1) false
              ++ true :: List.replicate (B'.length + 1) false ∧
        ((run s g (((pDown, t0) :: (A ++ (pB, tB) :: B'))
              ++ [(pUp, tEnd)])).2.2).map Events.longPressEnd
          = List.replicate (A.length + 1 + (B'.length + 1)) false ++ [true]) ∧
    (∀ (s : State) (g : Statics) (pDown pUp : Bool) (t0 tEnd : Nat)
        (A : List (Bool × Nat)),
        s.longPressTime = 1000 → g.wasDown = false →
        t0 + 1000 < 4294967296 →
        (∀ pr ∈ A, t0 ≤ pr.2 ∧ pr.2 < t0 + 1000) →
        (∀ k, k < ((pDown, t0) :: A).length →
          isDown (run s g (((pDown, t0) :: A).take (k + 1))).1 = true) →
        isDown (run s g (((pDown, t0) :: A) ++ [(pUp, tEnd)])).1 = false →
        ((run s g (((pDown, t0) :: A) ++ [(pUp, tEnd)])).2.2).map
            Events.longPressStart = List.replicate (A.length + 2) false ∧
        ((run s g (((pDown, t0) :: A) ++ [(pUp, tEnd)])).2.2).map
            Events.longPressEnd = List.replicate (A.length + 2) false) := by
  constructor
  · intro s g pDown pB pUp t0 tB tEnd A B' hlpt hw hb hA htB htB2 hdw hup
    have hd0 : isDown (update s g pDown t0).1 = true := by
      have h := hdw 0 (by simp)
      rw [List.take_succ_cons, List.take_zero] at h
      exact h
    have hstep := update_longpress_step s g pDown t0
    obtain ⟨hg1, hlpd1, hst0, hen0⟩ := hstep.2.1 hd0 hw
    have hlpt1 : (update s g pDown t0).1.longPressTime = 1000 := by
      rw [hstep.1, hlpt]
    have hw1 : (update s g pDown t0).2.1.wasDown = true := by
      rw [hg1]
    have hps1 : (update s g pDown t0).2.1.pressStartTime = t0 := by
      rw [hg1]
    have hdw' : ∀ k, k < (A ++ (pB, tB) :: B').length →
        isDown (run (update s g pDown t0).1 (update s g pDown t0).2.1
          ((A ++ (pB, tB) :: B').take (k + 1))).1 = true := by
      intro k hk
      have h := hdw (k + 1) (by simpa using Nat.succ_lt_succ hk)
      rw [List.take_succ_cons] at h
      rw [← (run_cons_proj s g pDown t0 ((A ++ (pB, tB) :: B').take (k + 1))).1]
      exact h
    have hup' : isDown (run (update s g pDown t0).1 (update s g pDown t0).2.1
        ((A ++ (pB, tB) :: B') ++ [(pUp, tEnd)])).1 = false := by
      rw [← (run_cons_proj s g pDown t0 ((A ++ (pB, tB) :: B') ++ [(pUp, tEnd)])).1]
      exact hup
    have htimes1 : ∀ pr ∈ A, (update s g pDown t0).2.1.pressStartTime ≤ pr.2 ∧
        pr.2 < (update s g pDown t0).2.1.pressStartTime + 1000 := by
      intro pr hpr
      rw [hps1]
      exact hA pr hpr
    have hb1 : (update s g pDown t0).2.1.pressStartTime + 1000 < 4294967296 := by
      rw [hps1]
      exact hb
    have htB1 : (update s g pDown t0).2.1.pressStartTime + 1000 ≤ tB := by
      rw [hps1]
      exact htB
    obtain ⟨r1, r2⟩ := lp_run_wait_fire_release A pB pUp tB tEnd B'
      (update s g pDown t0).1 (update s g pDown t0).2.1
      hw1 hlpd1 hlpt1 hb1 htimes1 htB1 htB2 hdw' hup'
    obtain ⟨_, _, c3⟩ := run_cons_proj s g pDown t0
      ((A ++ (pB, tB) :: B') ++ [(pUp, tEnd)])
    constructor
    · show ((run s g ((pDown, t0) :: ((A ++ (pB, tB) :: B')
          ++ [(pUp, tEnd)]))).2.2).map Events.longPressStart = _
      rw [c3, List.map_cons, hst0, r1]
      rfl
    · show ((run s g ((pDown, t0) :: ((A ++ (pB, tB) :: B')
          ++ [(pUp, tEnd)]))).2.2).map Events.longPressEnd = _
      rw [c3, List.map_cons, hen0, r2]
      rw [show A.length + 1 + (B'.length + 1)
          = (A.length + (B'.length + 1)) + 1 from by omega]
      rw [List.replicate_succ, List.cons_append]
  · intro s g pDown pUp t0 tEnd A hlpt hw hb hA hdw hup
    have hd0 : isDown (update s g pDown t0).1 = true := by
      have h := hdw 0 (by simp)
      rw [List.take_succ_cons, List.take_zero] at h
      exact h
    have hstep := update_longpress_step s g pDown t0
    obtain ⟨hg1, hlpd1, hst0, hen0⟩ := hstep.2.1 hd0 hw
    have hlpt1 : (update s g pDown t0).1.longPressTime = 1000 := by
      rw [hstep.1, hlpt]
    have hw1 : (update s g pDown t0).2.1.wasDown = true := by
      rw [hg1]
    have hps1 : (update s g pDown t0).2.1.pressStartTime = t0 := by
      rw [hg1]
    have hdw' : ∀ k, k < A.length →
        isDown (run (update s g pDown t0).1 (update s g pDown t0).2.1
          (A.take (k + 1))).1 = true := by
      intro k hk
      have h := hdw (k + 1) (by simpa using Nat.succ_lt_succ hk)
      rw [List.take_succ_cons] at h
      rw [← (run_cons_proj s g pDown t0 (A.take (k + 1))).1]
      exact h
    have hup' : isDown (run (update s g pDown t0).1 (update s g pDown t0).2.1
        (A ++ [(pUp, tEnd)])).1 = false := by
      rw [← (run_cons_proj s g pDown t0 (A ++ [(pUp, tEnd)])).1]
      exact hup
    have htimes1 : ∀ pr ∈ A, (update s g pDown t0).2.1.pressStartTime ≤ pr.2 ∧
        pr.2 < (update s g pDown t0).2.1.pressStartTime + 1000 := by
      intro pr hpr
      rw [hps1]
      exact hA pr hpr
    have hb1 : (update s g pDown t0).2.1.pressStartTime + 1000 < 4294967296 := by
      rw [hps1]
      exact hb
    obtain ⟨r1, r2⟩ := lp_run_wait_release A pUp tEnd
      (update s g pDown t0).1 (update s g pDown t0).2.1
      hw1 hlpd1 hlpt1 hb1 htimes1 hdw' hup'
    obtain ⟨_, _, c3⟩ := run_cons_proj s g pDown t0 (A ++ [(pUp, tEnd)])
    constructor
    · show ((run s g ((pDown, t0) :: (A ++ [(pUp, tEnd)]))).2.2).map
          Events.longPressStart = _
      rw [c3, List.map_cons, hst0, r1]
      rfl
    · show ((run s g ((pDown, t0) :: (A ++ [(pUp, tEnd)]))).2.2).map
          Events.longPressEnd = _
      rw [c3, List.map_cons, hen0, r2]
      rfl

/-- Witness for C5: an already-debounced-down instance held through ticks at
t = 0, 500, 1000, 1100 and released at t = 1200 fires start exactly at the
t = 1000 tick and end at the release tick; held only through t = 500 and
released at t = 800 it fires neither. -/
theorem c5_witness :
    ((run { mkDebounce1 with buttonHistory := 65535 } initStatics
        [(true, 0), (true, 500), (true, 1000), (true, 1100), (false, 1200)]).2.2).map
        Events.longPressStart = [false, false, true, false, false] ∧
    ((run { mkDebounce1 with buttonHistory := 65535 } initStatics
        [(true, 0), (true, 500), (true, 1000), (true, 1100), (false, 1200)]).2.2).map
        Events.longPressEnd = [false, false, false, false, true] ∧
    ((run { mkDebounce1 with buttonHistory := 65535 } initStatics
        [(true, 0), (true, 500), (false, 800)]).2.2).map
        Events.longPressStart = [false, false, false] ∧
    ((run { mkDebounce1 with buttonHistory := 65535 } initStatics
        [(true, 0), (true, 500), (false, 800)]).2.2).map
        Events.longPressEnd = [false, false, false] := by
  have hlong := c5_long_press_threshold.1
    { mkDebounce1 with buttonHistory := 65535 } initStatics
    true true false 0 1000 1200 [((true : Bool), (500 : Nat))]
    [((true : Bool), (1100 : Nat))]
    rfl rfl (by norm_num) (by decide) (by norm_num) (by norm_num)
    (by decide) (by decide)
  have hshort := c5_long_press_threshold.2
    { mkDebounce1 with buttonHistory := 65535 } initStatics
    true false 0 800 [((true : Bool), (500 : Nat))]
    rfl rfl (by norm_num) (by decide) (by decide) (by decide)
  exact ⟨hlong.1, hlong.2, hshort.1, hshort.2⟩

end Debounce

namespace Debounce

set_option maxRecDepth 8192 in
/-- C2 (counterexample to the claim as stated, on the main variant): the
default active-HIGH instance fed 10 deasserted then 6 asserted samples ends
with `isDown()` returning 1 even though the 16 most recent normalized samples
were not all asserted — the consuming `isPressed()` read inside `update`
forced the history to all ones at the 6th asserted sample. -/
theorem c2_counterexample :
    isDown (run mkDebounce1 initStatics Scenario.c2Input).1 = true ∧
    ((Scenario.c2Input.map (fun pr => readButton true pr.1)).drop
        (Scenario.c2Input.length - 16)).all (fun b => b) = false := by
  decide

set_option maxRecDepth 8192 in
/-- C3 (the code contradicts the claim): with double-press detection enabled
and window 300 ms, a clean press completing at t = 0, a clean release at
t = 100 and a second clean press at t = 200 — inside the window — produce no
double-press callback at any tick, leave the detection flag false and leave
the sequencer in DP_IDLE, because the `isPressed()`/`isReleased()` calls
inside `updateDoublePress` always return 0 (`update` has already consumed the
events). -/
theorem c3_double_press_never_fires :
    ((run Scenario.c3State initStatics Scenario.c3Input).2.2).map Events.doublePress
        = List.replicate 18 false ∧
    (run Scenario.c3State initStatics Scenario.c3Input).1.dpState = DPState.DP_IDLE ∧
    (run Scenario.c3State initStatics Scenario.c3Input).1.isDoublePressedFlag = false := by
  decide

set_option maxRecDepth 8192 in
/-- C6 (the code contradicts the claim): polled alone, instance A — held down
from t = 0 with ticks every 100 ms — fires its long-press-start callback at
t = 1000; if the idle instance B is also polled between consecutive ticks of
A, the shared function-`static` `wasDown`/`pressStartTime` are clobbered on
every B tick and the long-press-start callback of A never fires, so updating
one instance changes the observable behaviour of another. -/
theorem c6_static_state_interference :
    ((run2 mkDebounce1 mkDebounce1 initStatics Scenario.c6SchedSolo).2.2.2.filterMap
        (fun p => if p.1 then some p.2.longPressStart else none))
        = List.replicate 15 false ++ [true] ∧
    ((run2 mkDebounce1 mkDebounce1 initStatics Scenario.c6SchedBoth).2.2.2.filterMap
        (fun p => if p.1 then some p.2.longPressStart else none))
        = List.replicate 16 false := by
  decide

set_option maxRecDepth 8192 in
/-- C7 (the code contradicts the claim): after a clean press (history forced
to all ones, `isDown()` = 1) one deasserted sample takes `isDown()` from 1 to
0, yet `stateChanged()` returns 0 on that tick — `_prevState` is assigned
after the shift of the current tick, so it holds the current post-shift
down-state rather than the down-state of the previous tick. -/
theorem c7_state_changed_misses_release_transition :
    isDown (run mkDebounce1 initStatics (Scenario.c7Input.take 6)).1 = true ∧
    isDown (run mkDebounce1 initStatics Scenario.c7Input).1 = false ∧
    stateChanged (run mkDebounce1 initStatics Scenario.c7Input).1 = false := by
  decide

set_option maxRecDepth 8192 in
/-- C8 (counterexample to the claim as stated): after a long press has fired
and the button is released (tick at t = 1100), the tracked down-state is
false while `_longPressDetected` is still true — the flag is not reset at the
down-to-up transition. -/
theorem c8_flag_survives_release :
    (run mkDebounce1 initStatics Scenario.c8Input).1.longPressDetected = true ∧
    (run mkDebounce1 initStatics Scenario.c8Input).2.1.wasDown = false := by
  decide

set_option maxRecDepth 8192 in
/-- C9 (the code contradicts the claim): across a full physical double press
(presses completing at t = 0 and t = 200, releases at t = 100 and t = 300,
window 300 ms) with `isDoublePressed()` polled once after every tick, every
poll returns 0 — the detection flag is never set because the sequencer never
observes a press, so the double press yields zero true reads rather than
exactly one. -/
theorem c9_double_press_read_never_true :
    (runPollDouble Scenario.c9State initStatics Scenario.c9Input).2.2
        = List.replicate 24 false := by
  decide

/-- C10 (the code contradicts the claim): immediately after construction and
before any `update`, the active-LOW instance reports `isUp()` = 0 and
`isDown()` = 1 — its history is preset to 0xFFFF, which the fixed patterns
classify as down — while the active-HIGH instance reports up as claimed. -/
theorem c10_active_low_starts_down :
    isUp (mkDebounce2 false) = false ∧ isDown (mkDebounce2 false) = true ∧
    isUp (mkDebounce2 true) = true ∧ isDown (mkDebounce2 true) = false := by
  decide

end Debounce
namespace DebounceSimple

theorem encodeBits_aux (bs : List Bool) : ∀ a : Nat,
    bs.foldl (fun a b => 2 * a + b.toNat) a = a * 2 ^ bs.length + encodeBits bs := by
  induction bs with
  | nil => intro a; simp [encodeBits]
  | cons b rest ih =>
      intro a
      have hE : encodeBits (b :: rest)
          = (2 * 0 + b.toNat) * 2 ^ rest.length + encodeBits rest := by
        unfold encodeBits
        simp only [List.foldl_cons]
        exact ih _
      simp only [List.foldl_cons, List.length_cons]
      rw [ih (2 * a + b.toNat), hE]
      ring

theorem encodeBits_cons (b : Bool) (rest : List Bool) :
    encodeBits (b :: rest) = b.toNat * 2 ^ rest.length + encodeBits rest := by
  rw [show encodeBits (b :: rest)
      = List.foldl (fun a b => 2 * a + b.toNat) (2 * 0 + b.toNat) rest from rfl,
    encodeBits_aux rest]
  ring

theorem encodeBits_lt (bs : List Bool) : encodeBits bs < 2 ^ bs.length := by
  induction bs with
  | nil => simp [encodeBits]
  | cons b rest ih =>
      rw [encodeBits_cons, List.length_cons, pow_succ]
      cases b <;> simp only [Bool.toNat_false, Bool.toNat_true] <;> omega

theorem encodeBits_append (xs ys : List Bool) :
    encodeBits (xs ++ ys) = encodeBits xs * 2 ^ ys.length + encodeBits ys := by
  unfold encodeBits
  rw [List.foldl_append]
  exact encodeBits_aux ys _

theorem encodeBits_eq_ones_iff (bs : List Bool) :
    encodeBits bs = 2 ^ bs.length - 1 ↔ ∀ b ∈ bs, b = true := by
  induction bs with
  | nil => simp [encodeBits]
  | cons b rest ih =>
      rw [encodeBits_cons]
      have hlt := encodeBits_lt rest
      have hp : (2 : ℕ) ^ (b :: rest).length = 2 ^ rest.length * 2 := by
        rw [List.length_cons, pow_succ]
      rw [hp]
      constructor
      · intro hEq
        cases b with
        | false =>
            exfalso
            simp only [Bool.toNat_false, Nat.zero_mul, Nat.zero_add] at hEq
            have h1 : (1 : ℕ) ≤ 2 ^ rest.length := Nat.one_le_pow _ _ (by norm_num)
            omega
        | true =>
            simp only [Bool.toNat_true, Nat.one_mul] at hEq
            have h1 : (1 : ℕ) ≤ 2 ^ rest.length := Nat.one_le_pow _ _ (by norm_num)
            have hrest : encodeBits rest = 2 ^ rest.length - 1 := by omega
            intro x hx
            rcases List.mem_cons.mp hx with h | h
            · rw [h]
            · exact ih.mp hrest x h
      · intro hall
        have hb : b = true := hall b (List.mem_cons_self b rest)
        have hrest : encodeBits rest = 2 ^ rest.length - 1 :=
          ih.mpr (fun x hx => hall x (List.mem_cons_of_mem b hx))
        rw [hb, hrest]
        have h1 : (1 : ℕ) ≤ 2 ^ rest.length := Nat.one_le_pow _ _ (by norm_num)
        simp only [Bool.toNat_true, Nat.one_mul]
        omega

theorem encodeBits_eq_zero_iff (bs : List Bool) :
    encodeBits bs = 0 ↔ ∀ b ∈ bs, b = false := by
  induction bs with
  | nil => simp [encodeBits]
  | cons b rest ih =>
      rw [encodeBits_cons]
      constructor
      · intro hEq
        have h1 : (1 : ℕ) ≤ 2 ^ rest.length := Nat.one_le_pow _ _ (by norm_num)
        have hb : b.toNat = 0 := by
          cases b
          · rfl
          · simp only [Bool.toNat_true, Nat.one_mul] at hEq
            omega
        have hrest : encodeBits rest = 0 := by omega
        intro x hx
        rcases List.mem_cons.mp hx with h | h
        · rw [h]
          cases b
          · rfl
          · simp at hb
        · exact ih.mp hrest x h
      · intro hall
        have hb : b = false := hall b (List.mem_cons_self b rest)
        have hrest : encodeBits rest = 0 :=
          ih.mpr (fun x hx => hall x (List.mem_cons_of_mem b hx))
        rw [hb, hrest]
        simp

theorem update_hist (s : State) (pin : Bool) :
    (update s pin).buttonHistory
      = s.buttonHistory * 2 % 65536 + (Debounce.readButton s.active pin).toNat ∧
    (update s pin).active = s.active ∧
    (update s pin).buttonHistory < 65536 := by
  refine ⟨?_, rfl, ?_⟩
  · show Debounce.shiftIn s.buttonHistory (Debounce.readButton s.active pin) = _
    exact Debounce.shiftIn_eq _ _
  · show Debounce.shiftIn s.buttonHistory (Debounce.readButton s.active pin) < 65536
    exact Debounce.shiftIn_lt _ _

theorem runSamples_hist : ∀ (bs : List Bool) (s : State),
    s.buttonHistory < 65536 →
    (runSamples s bs).buttonHistory
      = (s.buttonHistory * 2 ^ bs.length
          + encodeBits (bs.map (Debounce.readButton s.active))) % 65536 ∧
    (runSamples s bs).active = s.active := by
  intro bs
  induction bs with
  | nil =>
      intro s hlt
      simp [runSamples, encodeBits, Nat.mod_eq_of_lt hlt]
  | cons b rest ih =>
      intro s hlt
      obtain ⟨hu1, hu2, hu3⟩ := update_hist s b
      obtain ⟨ih1, ih2⟩ := ih (update s b) hu3
      rw [hu2] at ih1 ih2
      constructor
      · show (runSamples (update s b) rest).buttonHistory = _
        rw [ih1, hu1]
        rw [List.map_cons, encodeBits_cons, List.length_map, List.length_cons]
        have h3 := (Nat.mod_modEq (s.buttonHistory * 2) 65536).mul_right
          (2 ^ rest.length)
        have h4 := h3.add_right ((Debounce.readButton s.active b).toNat
          * 2 ^ rest.length + encodeBits (rest.map (Debounce.readButton s.active)))
        have e1 : (s.buttonHistory * 2 % 65536 + (Debounce.readButton s.active b).toNat)
              * 2 ^ rest.length
              + encodeBits (rest.map (Debounce.readButton s.active))
            = s.buttonHistory * 2 % 65536 * 2 ^ rest.length
              + ((Debounce.readButton s.active b).toNat * 2 ^ rest.length
                + encodeBits (rest.map (Debounce.readButton s.active))) := by
          ring
        have e2 : s.buttonHistory * 2 ^ (rest.length + 1)
              + ((Debounce.readButton s.active b).toNat * 2 ^ rest.length
                + encodeBits (rest.map (Debounce.readButton s.active)))
            = s.buttonHistory * 2 * 2 ^ rest.length
              + ((Debounce.readButton s.active b).toNat * 2 ^ rest.length
                + encodeBits (rest.map (Debounce.readButton s.active))) := by
          ring
        rw [e1, e2]
        exact h4
      · show (runSamples (update s b) rest).active = _
        exact ih2

end DebounceSimple
namespace DebounceSimple

/-- C2 (amended, proved on the variant of src/src/Debounce.cpp, whose `update`
performs no consuming reads): after at least 16 samples, `isDown()` is true
iff the 16 most recent normalized samples were all asserted, and `isUp()` is
true iff they were all deasserted. -/
theorem c2_down_up_iff_last16 :
    ∀ (s : State) (bs : List Bool), s.buttonHistory < 65536 → 16 ≤ bs.length →
      (isDown (runSamples s bs) = true ↔
        ∀ b ∈ (bs.map (Debounce.readButton s.active)).drop (bs.length - 16),
          b = true) ∧
      (isUp (runSamples s bs) = true ↔
        ∀ b ∈ (bs.map (Debounce.readButton s.active)).drop (bs.length - 16),
          b = false) := by
  intro s bs hlt hlen
  obtain ⟨hh, _⟩ := runSamples_hist bs s hlt
  set ns := bs.map (Debounce.readButton s.active) with hns
  have hlenns : ns.length = bs.length := List.length_map _ _
  have hsplit : ns = ns.take (bs.length - 16) ++ ns.drop (bs.length - 16) :=
    (List.take_append_drop _ _).symm
  have hdlen : (ns.drop (bs.length - 16)).length = 16 := by
    rw [List.length_drop, hlenns]
    omega
  have hval : (runSamples s bs).buttonHistory
      = encodeBits (ns.drop (bs.length - 16)) := by
    rw [hh]
    conv_lhs => rw [hsplit]
    rw [encodeBits_append, hdlen]
    rw [show (2 : ℕ) ^ 16 = 65536 from by norm_num]
    rw [show (2 : ℕ) ^ bs.length = 2 ^ (bs.length - 16) * 65536 from by
      rw [show (65536 : ℕ) = 2 ^ 16 from by norm_num, ← pow_add]
      congr 1
      omega]
    rw [show s.buttonHistory * (2 ^ (bs.length - 16) * 65536)
          + (encodeBits (ns.take (bs.length - 16)) * 65536
            + encodeBits (ns.drop (bs.length - 16)))
        = 65536 * (s.buttonHistory * 2 ^ (bs.length - 16)
            + encodeBits (ns.take (bs.length - 16)))
          + encodeBits (ns.drop (bs.length - 16)) from by ring]
    rw [Nat.mul_add_mod]
    apply Nat.mod_eq_of_lt
    have := encodeBits_lt (ns.drop (bs.length - 16))
    rw [hdlen] at this
    simpa using this
  constructor
  · simp only [isDown, hval, beq_iff_eq, Debounce.DOWN]
    rw [show (0b1111111111111111 : Nat)
        = 2 ^ (ns.drop (bs.length - 16)).length - 1 from by rw [hdlen]; norm_num]
    exact encodeBits_eq_ones_iff _
  · simp only [isUp, hval, beq_iff_eq, Debounce.UP]
    rw [show (0b0000000000000000 : Nat) = 0 from rfl]
    exact encodeBits_eq_zero_iff _

/-- Witness for C2 (amended): a fresh active-HIGH instance fed 16 asserted
samples reports down; fed 16 deasserted samples it reports up. -/
theorem c2_witness :
    isDown (runSamples ⟨0, true, false⟩ (List.replicate 16 true)) = true ∧
    isUp (runSamples ⟨0, true, false⟩ (List.replicate 16 false)) = true := by
  constructor
  · exact ((c2_down_up_iff_last16 ⟨0, true, false⟩ (List.replicate 16 true)
      (by norm_num) (by simp)).1).mpr (by decide)
  · exact ((c2_down_up_iff_last16 ⟨0, true, false⟩ (List.replicate 16 false)
      (by norm_num) (by simp)).2).mpr (by decide)

end DebounceSimple
